import Mathlib

/-!
Verification of the geometry-interchange core of the `ezdxf` repository:
`src/ezdxf/addons/geo.py` (GeoJSON-style interchange proxy) and
`src/ezdxf/math/_bezier4p.py` (cubic Bézier curve with adaptive flattening).

Shallow embedding conventions:

* Python floats are idealized as exact rationals (`ℚ`); tolerance
  comparisons (`isclose`) of the vector collaborator and of `math.isclose`
  are idealized as exact equality, consistent with the spec's exact-geometry
  reading ("first coordinate equals last", "exactly").
* The Euclidean distance `a.distance(b)` of the vector collaborator is
  `√(distSq a b)`; every comparison `a.distance(b) < d` of the source is
  embedded sqrt-free as `0 < d ∧ distSq a b < d * d`, which is equivalent
  (both sides are `False` for `d ≤ 0` because a distance is nonnegative).
* Fallible code returns `Except` (errors named after the spec's error
  taxonomy) and the two recursions of `Bezier4P.flattening` (the `while`
  loop and the recursive generator `subdiv`) are given explicit fuel;
  `none` means the fuel ran out, never a result.
-/

namespace EzdxfSpec

/-- Modelled from the spec: the vector collaborator (`ezdxf.math` `Vec2` /
`Vec3` / `Vector`, not part of the analysed sources) — "an ordered 2- or
3-component real-valued coordinate; immutable; arithmetic
(add/scale/distance/linear-interpolate) is value-based".  2D vectors are the
`z = 0` special case; all component arithmetic is identical for both. -/
structure Pt where
  x : ℚ
  y : ℚ
  z : ℚ
  deriving DecidableEq, Repr

namespace Pt

/-- Componentwise addition of the vector collaborator. -/
def add (a b : Pt) : Pt := ⟨a.x + b.x, a.y + b.y, a.z + b.z⟩

/-- Componentwise subtraction of the vector collaborator. -/
def sub (a b : Pt) : Pt := ⟨a.x - b.x, a.y - b.y, a.z - b.z⟩

/-- Scalar multiple (`vector * factor`) of the vector collaborator. -/
def smul (a : Pt) (f : ℚ) : Pt := ⟨a.x * f, a.y * f, a.z * f⟩

/-- Linear interpolation `a.lerp(b, factor=0.5)` of the vector collaborator;
the flattening code calls it with the default factor `0.5`. -/
def lerp (a b : Pt) (factor : ℚ := 1/2) : Pt :=
  (a.add ((b.sub a).smul factor))

/-- Squared Euclidean distance.  `a.distance(b)` of the collaborator is
`√(distSq a b)`; comparisons against it are embedded sqrt-free
(see the header comment). -/
def distSq (a b : Pt) : ℚ :=
  (a.x - b.x) * (a.x - b.x) + (a.y - b.y) * (a.y - b.y)
    + (a.z - b.z) * (a.z - b.z)

theorem distSq_nonneg (a b : Pt) : 0 ≤ distSq a b := by
  have hx := mul_self_nonneg (a.x - b.x)
  have hy := mul_self_nonneg (a.y - b.y)
  have hz := mul_self_nonneg (a.z - b.z)
  unfold distSq
  linarith

end Pt

/-! ## `src/ezdxf/math/_bezier4p.py` -/

/-- Errors raised by the curve component, named after the spec's taxonomy
(§7): `InvalidArity` (constructor), `OutOfRange` (`point` / `tangent`),
`InvalidArgument` (`approximate`). -/
inductive CurveErr where
  | invalidArity
  | outOfRange
  | invalidArgument
  deriving DecidableEq, Repr

/-- `bernstein3(t)`: the cubic Bernstein basis, computed exactly as the
source does (`t2 = t*t`, `_1_minus_t = 1.0 - t`, …). -/
def bernstein3 (t : ℚ) : ℚ × ℚ × ℚ × ℚ :=
  let t2 := t * t
  let one_minus_t := 1 - t
  let one_minus_t_square := one_minus_t * one_minus_t
  (one_minus_t_square * one_minus_t,
   3 * one_minus_t_square * t,
   3 * one_minus_t * t2,
   t2 * t)

/-- `bernstein3_d1(t)`: first derivative of the cubic Bernstein basis,
exactly as the source computes it. -/
def bernstein3_d1 (t : ℚ) : ℚ × ℚ × ℚ × ℚ :=
  let t2 := t * t
  (-3 * (1 - t) ^ 2,
   3 * (1 - 4 * t + 3 * t2),
   3 * t * (2 - 3 * t),
   3 * t2)

/-- `Bezier4P`: an immutable cubic Bézier curve over exactly four control
points (`self._control_points`, unpacked as `b1, b2, b3, b4` in the
source). -/
structure Bezier4P where
  b1 : Pt
  b2 : Pt
  b3 : Pt
  b4 : Pt
  deriving DecidableEq, Repr

namespace Bezier4P

/-- `Bezier4P.__init__`: construction from a list of definition points;
raises `ValueError("Four control points required.")` (`InvalidArity`)
unless exactly 4 points are supplied. -/
def fromDefpoints : List Pt → Except CurveErr Bezier4P
  | [a, b, c, d] => .ok ⟨a, b, c, d⟩
  | _ => .error .invalidArity

/-- `Bezier4P._get_curve_point(t)`: `b1*a + b2*b + b3*c + b4*d` with
`a, b, c, d = bernstein3(t)`. -/
def getCurvePoint (cur : Bezier4P) (t : ℚ) : Pt :=
  let (a, b, c, d) := bernstein3 t
  (((cur.b1.smul a).add (cur.b2.smul b)).add (cur.b3.smul c)).add
    (cur.b4.smul d)

/-- `Bezier4P._get_curve_tangent(t)` with `bernstein3_d1`. -/
def getCurveTangent (cur : Bezier4P) (t : ℚ) : Pt :=
  let (a, b, c, d) := bernstein3_d1 t
  (((cur.b1.smul a).add (cur.b2.smul b)).add (cur.b3.smul c)).add
    (cur.b4.smul d)

/-- `check_if_in_valid_range(t)`: raises `ValueError` (`OutOfRange`)
unless `0 <= t <= 1`. -/
def checkIfInValidRange (t : ℚ) : Except CurveErr Unit :=
  if 0 ≤ t ∧ t ≤ 1 then .ok () else .error .outOfRange

/-- `Bezier4P.point(t)`: range check, then `_get_curve_point`. -/
def point (cur : Bezier4P) (t : ℚ) : Except CurveErr Pt := do
  let _ ← checkIfInValidRange t
  .ok (cur.getCurvePoint t)

/-- The deviation check of `flattening.subdiv`:
`chk_point.distance(mid_point) < distance`, embedded sqrt-free (equivalent
for every `distance`, see the header comment). -/
def deviationOk (distance : ℚ) (chkPoint midPoint : Pt) : Bool :=
  decide (0 < distance ∧ Pt.distSq chkPoint midPoint < distance * distance)

/-- `flattening.subdiv(start_point, end_point, start_t, end_t)`:
recursive bisection of the parameter interval.  The source recursion has no
structural bound, so it takes explicit `fuel`; `none` means the fuel ran
out before the recursion finished (never a partial result). -/
def subdiv (cur : Bezier4P) (distance : ℚ) :
    Nat → Pt → Pt → ℚ → ℚ → Option (List Pt)
  | 0, _, _, _, _ => none
  | fuel + 1, startPoint, endPoint, startT, endT =>
    let midT := (startT + endT) * (1/2)
    let midPoint := cur.getCurvePoint midT
    let chkPoint := startPoint.lerp endPoint
    if deviationOk distance chkPoint midPoint then
      some [endPoint]
    else do
      let l ← subdiv cur distance fuel startPoint midPoint startT midT
      let r ← subdiv cur distance fuel midPoint endPoint midT endT
      some (l ++ r)

/-- The endpoint selection of one `flattening` loop iteration:
`if math.isclose(t1, 1.0): end_point = self._control_points[3]; t1 = 1.0
else: end_point = self._get_curve_point(t1)`, returning the
`(end_point, t1)` pair; `math.isclose` is idealized as exact equality
`t1 = 1` (with `dt = 1/segments` every loop parameter is the exact
rational `k/segments`, so the closeness test can only fire at
`t1 = 1`). -/
def loopTarget (cur : Bezier4P) (t1 : ℚ) : Pt × ℚ :=
  if t1 = 1 then (cur.b4, (1 : ℚ)) else (cur.getCurvePoint t1, t1)

/-- The `while t0 < 1.0` loop of `flattening` (the part after
`yield start_point`).  `dt = 1.0 / segments`.  The loop advances `t0` by
`dt` each iteration, so it takes `fuel` as an explicit bound; `none`
means the fuel ran out. -/
def flatteningLoop (cur : Bezier4P) (distance : ℚ) (dt : ℚ)
    (subdivFuel : Nat) : Nat → ℚ → Pt → Option (List Pt)
  | 0, t0, _ => if t0 < 1 then none else some []
  | fuel + 1, t0, startPoint =>
    if t0 < 1 then do
      let et := loopTarget cur (t0 + dt)
      let seg ← subdiv cur distance subdivFuel startPoint et.1 t0 et.2
      let rest ← flatteningLoop cur distance dt subdivFuel fuel et.2 et.1
      some (seg ++ rest)
    else
      some []

/-- `Bezier4P.flattening(distance, segments)`: yields
`self._control_points[0]`, then runs the adaptive loop from `t0 = 0`.
`segments = 0` would raise `ZeroDivisionError` in the source at
`dt = 1.0 / segments`; here `dt = 0` makes the loop spin without progress
and the fuel runs out, so the result is `none` either way. -/
def flattening (cur : Bezier4P) (distance : ℚ) (segments : Nat)
    (loopFuel subdivFuel : Nat) : Option (List Pt) := do
  let dt : ℚ := 1 / (segments : ℚ)
  let rest ← flatteningLoop cur distance dt subdivFuel loopFuel 0 cur.b1
  some (cur.b1 :: rest)

end Bezier4P

/-! ## `src/ezdxf/addons/geo.py` — data universe and errors -/

/-- Universe of the Python values flowing through `geo.py`: JSON-ish wire
data (numbers, strings, lists, `None`), compiled `Vector` objects, and the
geo mappings themselves.  A geo mapping (`Dict`) is modelled by `obj` with
one optional slot per key the module reads or writes (`type`,
`coordinates`, `features`, `geometries`, `geometry`); a slot holding
`some v` means the key is present with value `v` (`v = null` models a
stored JSON `null`), `none` means the key is absent. -/
inductive GVal where
  | null
  | num (q : ℚ)
  | str (s : String)
  | vec (p : Pt)
  | list (xs : List GVal)
  | obj (type? coordinates? features? geometries? geometry? : Option GVal)

/-- Python truthiness for the values of the universe (`if features:` …).
A dict is falsy iff empty; `obj` with every slot absent models the empty
dict.  `Vector` objects are truthy. -/
def truthy : GVal → Bool
  | .null => false
  | .num q => q != 0
  | .str s => s != ""
  | .vec _ => true
  | .list xs => !xs.isEmpty
  | .obj t? c? f? g? geom? =>
    t?.isSome || c?.isSome || f?.isSome || g?.isSome || geom?.isSome

/-- `d.get(key)` of a Python dict: the stored value, or `None` when the
key is absent. -/
def getKey (slot : Option GVal) : GVal := slot.getD .null

/-- Errors of the interchange component, named after the spec's taxonomy
(§7) where it has a name, plus the raw Python exceptions the code can
raise outside that taxonomy. -/
inductive GeoErr where
  /-- `ValueError` for an absent required key (spec: `MissingKey`). -/
  | missingKey (key : String)
  /-- `TypeError(f'Invalid type "..."')` in `parse` (spec: `UnknownType`). -/
  | unknownType (t : GVal)
  /-- `ValueError('Invalid vertex count: ...')` in `linear_ring`
  (spec: `TooFewVertices`). -/
  | tooFewVertices
  /-- `TypeError('Type mismatch: ...')` in `join_multi_single_type_mappings`
  (spec: `TypeMismatch`). -/
  | typeMismatch
  /-- `TypeError(dxftype)` / `TypeError('Polymesh and Polyface not
  supported.')` in `mapping` (spec: `UnsupportedEntity`). -/
  | unsupportedEntity
  /-- `ValueError('Invalid vertex count.')` in
  `_line_string_or_polygon_mapping`. -/
  | invalidVertexCount
  /-- `ValueError('Invalid coordinate sequence.')` in
  `_is_coordinate_sequence`. -/
  | invalidCoordinates
  /-- `ValueError('HATCH without any boundary path.')`. -/
  | noBoundaryPath
  /-- `KeyError` from subscripting a dict whose key is absent. -/
  | keyError (key : String)
  /-- `AttributeError`: access to an attribute the object does not define
  (e.g. `.x` on a list, or an undefined DXF attribute name). -/
  | attributeError (name : String)
  /-- A Python `TypeError` outside the spec taxonomy: subscripting a list
  or `None` with a string key, `dict(None)`, `len()` of a number,
  iterating a non-iterable, `'Multi' +` a non-string, hashing an
  unhashable key. -/
  | typeError
  /-- A Python `ValueError` outside the spec taxonomy (failed tuple
  unpacking, malformed `Vector` argument). -/
  | valueError
  /-- `IndexError`: subscripting an empty list. -/
  | indexError

/-! ## `parse` (`geo.py` lines 270-349) -/

/-- Line 305 of `geo.py` reads `elif type in {POINT, LINE_STRING, POLYGON,
MULTI_POINT, MULTI_LINE_STRING, MULTI_POLYGON}`.  It tests the Python
BUILTIN function `type` — not the local variable `type_` bound on line
276 — for membership in a set of six strings.  A function object never
equals a string, so the condition evaluates to `False` for every input
and the whole branch is unreachable. -/
def typeBuiltinInGeometryTags : Bool := false

/-- `Vector(coordinates)` of the vector collaborator (modelled from the
spec: a 2- or 3-component coordinate); any other argument shape raises. -/
def vectorOf : GVal → Except GeoErr GVal
  | .list [.num x, .num y] => .ok (.vec ⟨x, y, 0⟩)
  | .list [.num x, .num y, .num z] => .ok (.vec ⟨x, y, z⟩)
  | _ => .error .valueError

/-- `[Vector(v) for v in xs]`. -/
def vectorOfList : List GVal → Except GeoErr (List GVal)
  | [] => .ok []
  | x :: xs => do
    let v ← vectorOf x
    let vs ← vectorOfList xs
    .ok (v :: vs)

/-- `Vector.list(coordinates)`: one `Vector` per element of a sequence. -/
def vectorList : GVal → Except GeoErr GVal
  | .list xs => do
    let vs ← vectorOfList xs
    .ok (.list vs)
  | _ => .error .typeError

/-- `_is_coordinate_sequence(coordinates)`: `True` for a flat coordinate
sequence (first item starts with a plain number), `False` for a sequence
of sequences; raises `ValueError('Invalid coordinate sequence.')` for a
non-sequence or an empty (outer or first-inner) sequence.  `len` of a
number raises `TypeError` in Python. -/
def isCoordinateSequence : GVal → Except GeoErr Bool
  | .list [] => .error .invalidCoordinates
  | .list (first :: _) =>
    match first with
    | .list [] => .error .invalidCoordinates
    | .list (f0 :: _) =>
      match f0 with
      | .num _ => .ok true
      | _ => .ok false
    | _ => .error .typeError
  | _ => .error .invalidCoordinates

/-- `[Vector.list(h) for h in holes]`. -/
def vectorListOfList : List GVal → Except GeoErr (List GVal)
  | [] => .ok []
  | x :: xs => do
    let v ← vectorList x
    let vs ← vectorListOfList xs
    .ok (v :: vs)

/-- `_parse_polygon(coordinates)`: a flat ring is exterior-only, a ring
list is `[exterior, hole, ...]`; the returned `(exterior, holes)` tuple is
represented as `.list [exterior, .list holes]`. -/
def parsePolygonCoords (coordinates : GVal) : Except GeoErr GVal := do
  let flat ← isCoordinateSequence coordinates
  let (exterior, holes) ←
    if flat then
      pure (coordinates, ([] : List GVal))
    else
      match coordinates with
      | .list (e :: hs) => pure (e, hs)
      | .list [] => .error .indexError
      | _ => .error .typeError
  let ext ← vectorList exterior
  let hs ← vectorListOfList holes
  .ok (.list [ext, .list hs])

/-- `[_parse_polygon(v) for v in xs]`. -/
def parsePolygonList : List GVal → Except GeoErr (List GVal)
  | [] => .ok []
  | x :: xs => do
    let v ← parsePolygonCoords x
    let vs ← parsePolygonList xs
    .ok (v :: vs)

/-- The unreachable coordinate-conversion dispatch of `parse` (lines
311-320), kept faithful to the source; `t` is one of the six geometry tag
strings there. -/
def parseLeafCoordinates (t : String) (coordinates : GVal) :
    Except GeoErr GVal :=
  if t = "Point" then vectorOf coordinates
  else if t = "LineString" ∨ t = "MultiPoint" then vectorList coordinates
  else if t = "Polygon" then parsePolygonCoords coordinates
  else if t = "MultiLineString" then
    match coordinates with
    | .list vs => do
      let ls ← vectorListOfList vs
      .ok (.list ls)
    | _ => .error .typeError
  else if t = "MultiPolygon" then
    match coordinates with
    | .list vs => do
      let ls ← parsePolygonList vs
      .ok (.list ls)
    | _ => .error .typeError
  else .ok coordinates

mutual

/-- `parse(geo_mapping)` (`geo.py` lines 270-324), translated branch by
branch.  Because line 305 compares the builtin `type` with strings (see
`typeBuiltinInGeometryTags`), every mapping whose `type` is not
`FeatureCollection` / `GeometryCollection` / `Feature` falls through to
`raise TypeError(f'Invalid type ...')`.  Line 321 of the dead branch,
`geo_mapping[coordinates] = coordinates`, uses the converted coordinates
VALUE as a dict key; `Vector` objects and lists are unhashable, so it
would raise `TypeError` even if reached. -/
def parse : GVal → Except GeoErr GVal
  | .obj type? coordinates? features? geometries? geometry? =>
    match getKey type? with
    | .null => .error (.missingKey "type")
    | .str "FeatureCollection" =>
      -- `features = geo_mapping.get(FEATURES); if features: ... else raise`
      match features? with
      | some features =>
        if truthy features then
          match features with
          | .list fs => do
            let fs' ← parseList fs
            .ok (.obj type? coordinates? (some (.list fs')) geometries?
                  geometry?)
          | _ => .error .typeError
        else
          .error (.missingKey "features")
      | none => .error (.missingKey "features")
    | .str "GeometryCollection" =>
      match geometries? with
      | some geometries =>
        if truthy geometries then
          match geometries with
          | .list gs => do
            let gs' ← parseList gs
            .ok (.obj type? coordinates? features? (some (.list gs'))
                  geometry?)
          | _ => .error .typeError
        else
          .error (.missingKey "geometries")
      | none => .error (.missingKey "geometries")
    | .str "Feature" =>
      match geometry? with
      | some geometry =>
        if truthy geometry then do
          let g' ← parse geometry
          .ok (.obj type? coordinates? features? geometries? (some g'))
        else
          .ok (.obj type? coordinates? features? geometries? (some .null))
      | none => .error (.missingKey "geometry")
    | t =>
      if typeBuiltinInGeometryTags then
        -- Unreachable faithful translation of lines 305-321:
        match getKey coordinates? with
        | .null => .error (.missingKey "coordinates")
        | coordinates => do
          let s := match t with | .str s => s | _ => ""
          let _converted ← parseLeafCoordinates s coordinates
          -- `geo_mapping[coordinates] = coordinates`: unhashable dict key.
          .error .typeError
      else
        .error (.unknownType t)
  | _ => .error (.attributeError "get")

/-- `[parse(f) for f in ...]`. -/
def parseList : List GVal → Except GeoErr (List GVal)
  | [] => .ok []
  | g :: gs => do
    let g' ← parse g
    let gs' ← parseList gs
    .ok (g' :: gs')

end

/-! ## `_rebuild` (`geo.py` lines 352-380) -/

/-- One coordinate tuple `(v.x, v.y)` of the wire form. -/
def wirePair (v : Pt) : GVal := .list [.num v.x, .num v.y]

/-- `[(v.x, v.y) for v in coordinates]`: each element must be a `Vector`
(`.x` on anything else raises `AttributeError`). -/
def wirePairs : List GVal → Except GeoErr (List GVal)
  | [] => .ok []
  | .vec v :: rest => do
    let rest' ← wirePairs rest
    .ok (wirePair v :: rest')
  | _ :: _ => .error (.attributeError "x")

/-- `[(v.x, v.y) for v in hole] for hole in holes`: one rebuilt ring per
hole. -/
def wireRings : List GVal → Except GeoErr (List GVal)
  | [] => .ok []
  | .list hv :: rest => do
    let ps ← wirePairs hv
    let rest' ← wireRings rest
    .ok (.list ps :: rest')
  | _ :: _ => .error .typeError

mutual

/-- `_rebuild(geo_mapping)` (`geo.py` lines 352-380), translated branch by
branch.  `dict(geo_mapping)` of a non-dict raises `TypeError` (so
`_rebuild(None)` — reached for a `Feature` parsed with a null geometry —
always fails).  The `MultiLineString` branch of the source,
`[(v.x, v.y) for v in (line for line in coordinates)]`, lets `v` range
over the LINES themselves (the inner generator is a no-op), so it is the
same flat comprehension as the `LineString` branch and raises
`AttributeError` on well-formed nested coordinates.  A `type` outside the
handled tags (including `MultiPolygon`, which `_rebuild` does not handle)
falls through and the mapping is returned unchanged. -/
def rebuild : GVal → Except GeoErr GVal
  | .obj type? coordinates? features? geometries? geometry? =>
    match type? with
    | none => .error (.keyError "type")
    | some t =>
      match t with
      | .str "FeatureCollection" =>
        match features? with
        | none => .error (.keyError "features")
        | some (.list fs) => do
          let fs' ← rebuildList fs
          .ok (.obj type? coordinates? (some (.list fs')) geometries?
                geometry?)
        | some _ => .error .typeError
      | .str "GeometryCollection" =>
        match geometries? with
        | none => .error (.keyError "geometries")
        | some (.list gs) => do
          let gs' ← rebuildList gs
          .ok (.obj type? coordinates? features? (some (.list gs'))
                geometry?)
        | some _ => .error .typeError
      | .str "Feature" =>
        match geometry? with
        | none => .error (.keyError "geometry")
        | some g => do
          let g' ← rebuild g
          .ok (.obj type? coordinates? features? geometries? (some g'))
      | .str "Point" =>
        match coordinates? with
        | none => .error (.keyError "coordinates")
        | some (.vec v) =>
          .ok (.obj type? (some (wirePair v)) features? geometries?
                geometry?)
        | some _ => .error (.attributeError "x")
      | .str "LineString" =>
        match coordinates? with
        | none => .error (.keyError "coordinates")
        | some (.list vs) => do
          let ps ← wirePairs vs
          .ok (.obj type? (some (.list ps)) features? geometries?
                geometry?)
        | some _ => .error .typeError
      | .str "MultiPoint" =>
        match coordinates? with
        | none => .error (.keyError "coordinates")
        | some (.list vs) => do
          let ps ← wirePairs vs
          .ok (.obj type? (some (.list ps)) features? geometries?
                geometry?)
        | some _ => .error .typeError
      | .str "MultiLineString" =>
        -- The buggy comprehension: identical to the LineString branch.
        match coordinates? with
        | none => .error (.keyError "coordinates")
        | some (.list vs) => do
          let ps ← wirePairs vs
          .ok (.obj type? (some (.list ps)) features? geometries?
                geometry?)
        | some _ => .error .typeError
      | .str "Polygon" =>
        match coordinates? with
        | none => .error (.keyError "coordinates")
        | some (.list [.list ext, .list holes]) => do
          -- `extrior, holes = geo_interface[COORDINATES]`
          let extPairs ← wirePairs ext
          let coords ←
            if !holes.isEmpty then do
              let hs ← wireRings holes
              pure (GVal.list (.list extPairs :: hs))
            else
              pure (GVal.list extPairs)
          .ok (.obj type? (some coords) features? geometries? geometry?)
        | some _ => .error .valueError
      | _ =>
        .ok (.obj type? coordinates? features? geometries? geometry?)
  | _ => .error .typeError

/-- `[_rebuild(f) for f in ...]`. -/
def rebuildList : List GVal → Except GeoErr (List GVal)
  | [] => .ok []
  | g :: gs => do
    let g' ← rebuild g
    let gs' ← rebuildList gs
    .ok (g' :: gs')

end

/-! ## `GeoProxy.__iter__` (`geo.py` lines 106-120) -/

/-- `GeoProxy.__iter__._iter(root)` translated literally.  For a
`FeatureCollection` the source executes `yield from _iter(root[FEATURES])`
— it passes the feature LIST itself (not its elements) to `_iter`, whose
first statement `root[TYPE]` then subscripts a list with a string and
raises `TypeError`; same for `GeometryCollection`.  The non-dict fallthrough
case models exactly that `TypeError`. -/
def iterLeaves : GVal → Except GeoErr (List GVal)
  | .obj type? coordinates? features? geometries? geometry? =>
    match type? with
    | none => .error (.keyError "type")
    | some t =>
      match t with
      | .str "FeatureCollection" =>
        match features? with
        | none => .error (.keyError "features")
        | some fv => iterLeaves fv
      | .str "GeometryCollection" =>
        match geometries? with
        | none => .error (.keyError "geometries")
        | some gv => iterLeaves gv
      | .str "Feature" =>
        match geometry? with
        | none => .error (.keyError "geometry")
        | some gv => .ok [gv]
      | _ => .ok [.obj type? coordinates? features? geometries? geometry?]
  | _ => .error .typeError

/-! ## Ring normalization (`geo.py` lines 540-625) -/

/-- `line_string_mapping(points)`. -/
def line_string_mapping (points : List Pt) : GVal :=
  .obj (some (.str "LineString")) (some (.list (points.map .vec))) none
    none none

/-- `is_linear_ring(points)`: `points[0].isclose(points[-1])`, closeness
idealized as exact equality (see the header comment). -/
def is_linear_ring (points : List Pt) : Bool :=
  decide (points.head? = points.getLast?)

/-- Cross product term `x1*y2 - x2*y1` of one shoelace edge. -/
def shoelaceTerm (a b : Pt) : ℚ := a.x * b.y - b.x * a.y

/-- Edge sum helper for `signedArea2`: `first` is the cycle's first
vertex, `prev` the previous one. -/
def signedAreaAux (first prev : Pt) : List Pt → ℚ
  | [] => shoelaceTerm prev first
  | q :: rest => shoelaceTerm prev q + signedAreaAux first q rest

/-- Doubled signed (shoelace) area of the vertex cycle: the sum of
`x_i*y_j - x_j*y_i` over consecutive vertex pairs, the closing edge
last-to-first included (for a closed ring — first vertex repeated at the
end — the closing edge contributes 0).  Counter-clockwise rings have
positive area. -/
def signedArea2 : List Pt → ℚ
  | [] => 0
  | p :: rest => signedAreaAux p p rest

/-- Modelled from the spec: `has_clockwise_orientation` of the
`ezdxf.math` collaborator — the "shoelace-style clockwise test": a vertex
cycle is clockwise iff its signed area is negative. -/
def has_clockwise_orientation (points : List Pt) : Bool :=
  decide (signedArea2 points < 0)

/-- `if not points[0].isclose(points[-1]): points.append(points[0])` of
`linear_ring` (closeness idealized as exact equality). -/
def closeIfOpen (points : List Pt) : List Pt :=
  match points with
  | [] => []
  | p :: rest =>
    if (p :: rest).getLast? = some p then p :: rest
    else (p :: rest) ++ [p]

/-- `linear_ring(points, ccw)` (`geo.py` lines 567-585): fewer than 3
points raise `ValueError` (`TooFewVertices`); the ring is closed by
appending the first point when open; then it is reversed when the
shoelace orientation does not match the requested winding. -/
def linear_ring (points : List Pt) (ccw : Bool := true) :
    Except GeoErr (List Pt) :=
  if points.length < 3 then .error .tooFewVertices
  else
    let pts := closeIfOpen points
    if has_clockwise_orientation pts then
      if ccw then .ok pts.reverse else .ok pts
    else
      if !ccw then .ok pts.reverse else .ok pts

/-- `for hole in holes: rings.append(linear_ring(Vector.list(hole),
ccw=False))` of `polygon_mapping`. -/
def polygonHoleRings : List (List Pt) → Except GeoErr (List GVal)
  | [] => .ok []
  | h :: hs => do
    let r ← linear_ring h false
    let rest ← polygonHoleRings hs
    .ok (GVal.list (r.map .vec) :: rest)

/-- `polygon_mapping(points, holes)` (`geo.py` lines 588-625): exterior
normalized counter-clockwise, holes clockwise; `coordinates` is the flat
exterior ring when `holes` is empty (`if holes:` is Python truthiness),
else `[exterior, hole, ...]`.  `Vector.list` is the identity here because
the embedding already carries vectors. -/
def polygon_mapping (points : List Pt) (holes : List (List Pt) := []) :
    Except GeoErr GVal := do
  let exterior ← linear_ring points true
  let rings ←
    if !holes.isEmpty then do
      let hs ← polygonHoleRings holes
      pure (GVal.list (.list (exterior.map .vec) :: hs))
    else
      pure (GVal.list (exterior.map .vec))
  .ok (.obj (some (.str "Polygon")) (some rings) none none none)

/-- `_line_string_or_polygon_mapping(points, force_line_string)`
(`geo.py` lines 430-441). -/
def lineStringOrPolygonMapping (points : List Pt)
    (force_line_string : Bool) : Except GeoErr GVal :=
  if points.length < 2 then .error .invalidVertexCount
  else if points.length = 2 || force_line_string then
    .ok (line_string_mapping points)
  else if is_linear_ring points then polygon_mapping points
  else .ok (line_string_mapping points)

/-! ## Joining (`geo.py` lines 628-655) -/

mutual

/-- Python `==` on the value universe; used for `set` membership. -/
def pyEq : GVal → GVal → Bool
  | .null, .null => true
  | .num a, .num b => decide (a = b)
  | .str a, .str b => decide (a = b)
  | .vec a, .vec b => decide (a = b)
  | .list xs, .list ys => pyEqList xs ys
  | .obj a1 a2 a3 a4 a5, .obj b1 b2 b3 b4 b5 =>
    pyEqOpt a1 b1 && pyEqOpt a2 b2 && pyEqOpt a3 b3 && pyEqOpt a4 b4 &&
      pyEqOpt a5 b5
  | _, _ => false

/-- Elementwise Python `==` of two lists. -/
def pyEqList : List GVal → List GVal → Bool
  | [], [] => true
  | x :: xs, y :: ys => pyEq x y && pyEqList xs ys
  | _, _ => false

/-- Python `==` of two optional dict slots. -/
def pyEqOpt : Option GVal → Option GVal → Bool
  | none, none => true
  | some a, some b => pyEq a b
  | _, _ => false

end

/-- Membership in a Python `set` modelled as a duplicate-free list. -/
def setContains (s : List GVal) (x : GVal) : Bool := s.any (pyEq x)

/-- `types.add(x)`: insert into the set unless already a member. -/
def setAdd (s : List GVal) (x : GVal) : List GVal :=
  if setContains s x then s else s ++ [x]

/-- The `for g in geometries: types.add(g[TYPE]);
data.append(g[COORDINATES])` loop of `join_multi_single_type_mappings`:
returns the tag set (in first-insertion order) and the coordinate list
(in input order).  `g[KEY]` on a dict without the key raises
`KeyError`. -/
def joinCollect (types : List GVal) (data : List GVal) :
    List GVal → Except GeoErr (List GVal × List GVal)
  | [] => .ok (types, data)
  | g :: gs =>
    match g with
    | .obj t? c? _ _ _ =>
      match t? with
      | none => .error (.keyError "type")
      | some t =>
        match c? with
        | none => .error (.keyError "coordinates")
        | some c => joinCollect (setAdd types t) (data ++ [c]) gs
    | _ => .error .typeError

/-- `join_multi_single_type_mappings(geometries)` (`geo.py` lines
628-646): collects `g[TYPE]` into a set and `g[COORDINATES]` into a list,
then fails with `TypeMismatch` for more than one distinct tag, returns
the empty dict for no input, and otherwise returns the `'Multi' + tag`
mapping with the coordinates in input order (`'Multi' +` a non-string
would raise `TypeError`). -/
def join_multi_single_type_mappings (geometries : List GVal) :
    Except GeoErr GVal := do
  let (types, data) ← joinCollect [] [] geometries
  if types.length > 1 then .error .typeMismatch
  else
    match types with
    | [] => .ok (.obj none none none none none)
    | GVal.str s :: _ =>
      .ok (.obj (some (.str ("Multi" ++ s))) (some (.list data)) none none
            none)
    | _ :: _ => .error .typeError

/-- `geometry_collection_mapping(geometries)` (`geo.py` lines 649-655). -/
def geometry_collection_mapping (geometries : List GVal) : GVal :=
  .obj (some (.str "GeometryCollection")) none none
    (some (.list geometries)) none

/-! ## DXF entity collaborators (modelled from the spec, §6) -/

/-- Modelled from the spec: the boundary-path collaborator of a hatch —
"an ordered boundary-path list where each path reports whether it is
flagged external, outermost, or default".  `flattened d` stands for the
vertex list of `Path.from_hatch_polyline_path` / `from_hatch_edge_path`
followed by `path.flattening(d)` (both polyline and edge paths produce
the same kind of flattenable path object, so one accessor covers the two
`PATH_TYPE` branches of `boundary_to_vertices`). -/
structure BoundaryPath where
  isExternal : Bool
  isOutermost : Bool
  isDefault : Bool
  flattened : ℚ → List Pt

/-- Modelled from the spec: the three hatch fill-style enum values of the
`const` collaborator (`HATCH_STYLE_NESTED` / `OUTERMOST` / `IGNORE`). -/
def HATCH_STYLE_NESTED : ℕ := 0

def HATCH_STYLE_OUTERMOST : ℕ := 1

def HATCH_STYLE_IGNORE : ℕ := 2

/-- Modelled from the spec: the hatch entity collaborator — its
elevation/plane, its fill-style enum and its ordered boundary-path
list. -/
structure HatchEnt where
  elevation : Pt
  hatch_style : ℕ
  paths : List BoundaryPath

/-- Modelled from the spec: DXF attribute access `hatch.dxf.<name>` on
the hatch collaborator.  The namespace defines the fill-style enum under
the attribute name `"hatch_style"`; access to an attribute name it does
not define raises a `DXFAttributeError` (mapped to `attributeError`). -/
def HatchEnt.dxfGet (h : HatchEnt) (name : String) : Except GeoErr ℕ :=
  if name = "hatch_style" then .ok h.hatch_style
  else .error (.attributeError name)

/-- Modelled from the spec: `boundaries.external_path()` — the first
boundary path explicitly flagged external, if any. -/
def externalPath (paths : List (ℕ × BoundaryPath)) :
    Option (ℕ × BoundaryPath) :=
  paths.find? (fun p => p.2.isExternal)

/-- Modelled from the spec: `boundaries.outer_most_paths()`. -/
def outerMostPaths (paths : List (ℕ × BoundaryPath)) :
    List (ℕ × BoundaryPath) :=
  paths.filter (fun p => p.2.isOutermost)

/-- Modelled from the spec: `boundaries.default_paths()`. -/
def defaultPaths (paths : List (ℕ × BoundaryPath)) :
    List (ℕ × BoundaryPath) :=
  paths.filter (fun p => p.2.isDefault)

/-- Modelled from the spec: the DXF entity kinds `mapping` dispatches on.
Curved entities carry their flattening accessor (`entity.flattening(d)` /
`Path.from_*` + `path.flattening(d)`); `SOLID`/`TRACE`/`3DFACE` carry
`wcs_vertices(close=True)`; a `POLYLINE` records whether it is a 2D/3D
polyline (else it is a polymesh/polyface). -/
inductive Entity where
  | point (location : Pt)
  | line (start stop : Pt)
  | polyline (is2dOr3dPolyline : Bool) (flattened : ℚ → List Pt)
  | lwpolyline (flattened : ℚ → List Pt)
  | curve (flattened : ℚ → List Pt)
  | face (wcsVerticesClosed : List Pt)
  | hatch (h : HatchEnt)
  | unsupported (dxftype : String)

/-! ## `_hatch_as_polygon` (`geo.py` lines 444-511) -/

/-- `boundary_to_vertices(boundary)`: flatten the path, then close the
vertex list if open (`vertices[0]` of an empty list raises
`IndexError`). -/
def boundaryToVertices (distance : ℚ) (boundary : BoundaryPath) :
    Except GeoErr (List Pt) :=
  match boundary.flattened distance with
  | [] => .error .indexError
  | v :: rest =>
    let vertices := v :: rest
    if vertices.getLast? = some v then .ok vertices
    else .ok (vertices ++ [v])

/-- `filter_external(paths)`: when no path was explicitly flagged
external, remove the fallback external path (Python compares object
identity `id(p) != id(external)`; the embedding compares list
positions). -/
def filterExternal (hasExplicitExternal : Bool) (external : ℕ)
    (paths : List (ℕ × BoundaryPath)) : List (ℕ × BoundaryPath) :=
  if !hasExplicitExternal then paths.filter (fun p => p.1 ≠ external)
  else paths

/-- The `for hole in holes:` loop of the `force_line_string` branch of
`_hatch_as_polygon`: flatten each hole and map it line-vs-polygon. -/
def holeGeometries (distance : ℚ) (force_line_string : Bool) :
    List (ℕ × BoundaryPath) → Except GeoErr (List GVal)
  | [] => .ok []
  | hole :: rest => do
    let pts ← boundaryToVertices distance hole.2
    let g ← lineStringOrPolygonMapping pts force_line_string
    let gs ← holeGeometries distance force_line_string rest
    .ok (g :: gs)

/-- `[boundary_to_vertices(h) for h in holes]`. -/
def holeVertexLists (distance : ℚ) :
    List (ℕ × BoundaryPath) → Except GeoErr (List (List Pt))
  | [] => .ok []
  | h :: rest => do
    let pts ← boundaryToVertices distance h.2
    let ps ← holeVertexLists distance rest
    .ok (pts :: ps)

/-- `_hatch_as_polygon(hatch, distance, force_line_string)` (`geo.py`
lines 444-511), statement by statement.  Line 468 reads
`hatch.dxf.hath_style` — `"hath_style"` is a misspelling of
`"hatch_style"` and not a DXF attribute the hatch defines, so the access
raises before the boundary count is even checked; everything below the
style fetch is translated faithfully but unreachable. -/
def hatchAsPolygon (hatch : HatchEnt) (distance : ℚ)
    (force_line_string : Bool) : Except GeoErr GVal := do
  let _elevation := hatch.elevation.z
  -- `ocs = hatch.ocs()` only parameterizes `boundary_to_vertices`; it is
  -- folded into `BoundaryPath.flattened`.
  let hatch_style ← hatch.dxfGet "hath_style"
  let boundaries := hatch.paths.enum
  let count := boundaries.length
  if count = 0 then .error .noBoundaryPath
  else
    match boundaries with
    | [] => .error .noBoundaryPath
    | b0 :: _ =>
      let (has_explicit_external, external) :=
        match externalPath boundaries with
        | some e => (true, e)
        | none => (false, b0)
      if count = 1 ∨ hatch_style = HATCH_STYLE_IGNORE then do
        let points ← boundaryToVertices distance external.2
        lineStringOrPolygonMapping points force_line_string
      else do
        let holes := filterExternal has_explicit_external external.1
          (outerMostPaths boundaries)
        let hatch_style :=
          if hatch_style = HATCH_STYLE_OUTERMOST ∧ holes.length = 0 then
            HATCH_STYLE_NESTED
          else hatch_style
        let holes :=
          if hatch_style = HATCH_STYLE_NESTED then
            holes ++ filterExternal has_explicit_external external.1
              (defaultPaths boundaries)
          else holes
        if force_line_string then do
          let points ← boundaryToVertices distance external.2
          let first ← lineStringOrPolygonMapping points force_line_string
          let rest ← holeGeometries distance force_line_string holes
          join_multi_single_type_mappings (first :: rest)
        else do
          let points ← boundaryToVertices distance external.2
          let hs ← holeVertexLists distance holes
          polygon_mapping points hs

/-! ## `mapping`, `collection`, `GeoProxy.from_dxf_entities`
(`geo.py` lines 47-61, 175-194, 383-427, 514-537) -/

/-- `mapping(entity, distance, force_line_string)` (`geo.py` lines
383-427): dispatch on the entity kind. -/
def mapping (entity : Entity) (distance : ℚ)
    (force_line_string : Bool := false) : Except GeoErr GVal :=
  match entity with
  | .point location =>
    .ok (.obj (some (.str "Point")) (some (.vec location)) none none none)
  | .line start stop => .ok (line_string_mapping [start, stop])
  | .polyline is2dOr3d flattened =>
    if is2dOr3d then
      lineStringOrPolygonMapping (flattened distance) force_line_string
    else
      .error .unsupportedEntity
  | .lwpolyline flattened =>
    lineStringOrPolygonMapping (flattened distance) force_line_string
  | .curve flattened =>
    lineStringOrPolygonMapping (flattened distance) force_line_string
  | .face wcsVerticesClosed =>
    lineStringOrPolygonMapping wcsVerticesClosed force_line_string
  | .hatch h => hatchAsPolygon h distance force_line_string
  | .unsupported _ => .error .unsupportedEntity

/-- `m = [mapping(e, distance, force_line_string) for e in entities]`. -/
def mappingList (entities : List Entity) (distance : ℚ)
    (force_line_string : Bool) : Except GeoErr (List GVal) :=
  match entities with
  | [] => .ok []
  | e :: es => do
    let g ← mapping e distance force_line_string
    let gs ← mappingList es distance force_line_string
    .ok (g :: gs)

/-- `types = set(g[TYPE] for g in m)` of `collection`. -/
def collectTypes (types : List GVal) : List GVal →
    Except GeoErr (List GVal)
  | [] => .ok types
  | g :: gs =>
    match g with
    | .obj t? _ _ _ _ =>
      match t? with
      | none => .error (.keyError "type")
      | some t => collectTypes (setAdd types t) gs
    | _ => .error .typeError

/-- `collection(entities, distance, force_line_string)` (`geo.py` lines
514-537): map every entity, then collapse into a `Multi*` mapping when
all results share one tag, else wrap as a `GeometryCollection`. -/
def collection (entities : List Entity) (distance : ℚ)
    (force_line_string : Bool := false) : Except GeoErr GVal := do
  let m ← mappingList entities distance force_line_string
  let types ← collectTypes [] m
  if types.length > 1 then .ok (geometry_collection_mapping m)
  else join_multi_single_type_mappings m

/-- A single entity or an iterable of entities (the
`isinstance(entity, DXFGraphic)` dispatch of `from_dxf_entities`). -/
inductive EntityInput where
  | single (e : Entity)
  | many (es : List Entity)

/-- `GeoProxy.from_dxf_entities(entity, distance, force_line_string)`
(`geo.py` lines 175-194) followed by `GeoProxy.__init__` (which stores
`parse(m)` as the proxy's root).  For an iterable input the source calls
`collection(entity, distance)` — the `force_line_string` argument is not
forwarded, so `collection`'s default `False` is used. -/
def from_dxf_entities (entity : EntityInput) (distance : ℚ := 1/10)
    (force_line_string : Bool := false) : Except GeoErr GVal := do
  let m ← match entity with
    | .single e => mapping e distance force_line_string
    | .many es => collection es distance
  parse m

/-- `proxy(entity, distance, force_line_string)` (`geo.py` lines 47-61):
returns `GeoProxy.from_dxf_entities(entity, distance,
force_line_string)`. -/
def proxyFn (entity : EntityInput) (distance : ℚ := 1/10)
    (force_line_string : Bool := false) : Except GeoErr GVal :=
  from_dxf_entities entity distance force_line_string

/-! ## Concrete fixtures used by the witnesses and counterexamples -/

/-- The wire mapping `{'type': 'Point', 'coordinates': [0, 0]}`. -/
def pointMapping : GVal :=
  .obj (some (.str "Point")) (some (.list [.num 0, .num 0])) none none none

/-- The wire mapping `{'type': 'Point'}` (required key absent). -/
def pointNoCoordinates : GVal :=
  .obj (some (.str "Point")) none none none none

/-- The wire mapping `{'type': 'Feature', 'geometry': None}` — an
unlocated feature, explicitly allowed by `parse`. -/
def featureNull : GVal :=
  .obj (some (.str "Feature")) none none none (some .null)

/-- The wire mapping `{'type': 'FeatureCollection',
'features': [{'type': 'Feature', 'geometry': None}]}`. -/
def featureCollection1 : GVal :=
  .obj (some (.str "FeatureCollection")) none (some (.list [featureNull]))
    none none

/-- Counter-clockwise square `(0,0) (10,0) (10,10) (0,10)`. -/
def sqPts : List Pt := [⟨0, 0, 0⟩, ⟨10, 0, 0⟩, ⟨10, 10, 0⟩, ⟨0, 10, 0⟩]

/-- Three collinear points `(0,0) (1,1) (2,2)`: a degenerate ring with
zero shoelace area. -/
def collinearPts : List Pt := [⟨0, 0, 0⟩, ⟨1, 1, 0⟩, ⟨2, 2, 0⟩]

/-- A `LineString` geometry mapping fixture. -/
def lsFixture : GVal := line_string_mapping [⟨0, 0, 0⟩, ⟨1, 0, 0⟩]

/-- A second `LineString` geometry mapping fixture. -/
def lsFixture2 : GVal := line_string_mapping [⟨0, 0, 0⟩, ⟨0, 1, 0⟩]

/-- A `Polygon` geometry mapping fixture (shape of the coordinates is
irrelevant to `join`). -/
def pgFixture : GVal :=
  .obj (some (.str "Polygon")) (some (.list [])) none none none

/-- A boundary path flagged external, flattening to a unit square. -/
def extBoundary : BoundaryPath :=
  ⟨true, false, false,
    fun _ => [⟨0, 0, 0⟩, ⟨1, 0, 0⟩, ⟨1, 1, 0⟩, ⟨0, 1, 0⟩]⟩

/-- A hatch with exactly one external boundary path of 4 points and fill
style "outermost". -/
def hatchOneExternal : HatchEnt :=
  ⟨⟨0, 0, 0⟩, HATCH_STYLE_OUTERMOST, [extBoundary]⟩

/-- A hatch with zero boundary paths. -/
def hatchNoBoundary : HatchEnt := ⟨⟨0, 0, 0⟩, HATCH_STYLE_OUTERMOST, []⟩

/-- The cubic curve over `(0,0) (1,1) (2,-1) (3,0)`. -/
def curveFixture : Bezier4P := ⟨⟨0, 0, 0⟩, ⟨1, 1, 0⟩, ⟨2, -1, 0⟩, ⟨3, 0, 0⟩⟩

/-- A ring is closed when its first coordinate equals its last. -/
def IsClosedRing (ring : List Pt) : Prop := ring.head? = ring.getLast?

/-- Squared norm of a vector. -/
def sqNorm (p : Pt) : ℚ := p.x * p.x + p.y * p.y + p.z * p.z

/-- Second difference `b1 - 2*b2 + b3` of the control points: together
with `secondDiffB` it spans the curve's second derivative
`P''(t) = 6*((1-t)*A + t*B)`. -/
def secondDiffA (c : Bezier4P) : Pt :=
  ⟨c.b1.x - 2 * c.b2.x + c.b3.x, c.b1.y - 2 * c.b2.y + c.b3.y,
    c.b1.z - 2 * c.b2.z + c.b3.z⟩

/-- Second difference `b2 - 2*b3 + b4` of the control points. -/
def secondDiffB (c : Bezier4P) : Pt :=
  ⟨c.b2.x - 2 * c.b3.x + c.b4.x, c.b2.y - 2 * c.b3.y + c.b4.y,
    c.b2.z - 2 * c.b3.z + c.b4.z⟩

/-- `sqNorm ((1-m)*A + m*B)`: the squared norm of the convex mix of the
two second differences at parameter `m`. -/
def mixSq (c : Bezier4P) (m : ℚ) : ℚ :=
  sqNorm ⟨(1 - m) * (secondDiffA c).x + m * (secondDiffB c).x,
          (1 - m) * (secondDiffA c).y + m * (secondDiffB c).y,
          (1 - m) * (secondDiffA c).z + m * (secondDiffB c).z⟩

/-- Curvature bound `sqNorm A + sqNorm B` of a curve: an upper bound for
`mixSq` on `[0, 1]`. -/
def curvatureBound (c : Bezier4P) : ℚ :=
  sqNorm (secondDiffA c) + sqNorm (secondDiffB c)

/-- Open (non-cyclic) shoelace sum: the edge terms over consecutive
vertex pairs only.  For a closed ring it coincides with `signedArea2`
because the closing edge of a closed ring contributes zero. -/
def pathSum : List Pt → ℚ
  | a :: b :: rest => shoelaceTerm a b + pathSum (b :: rest)
  | _ => 0

/-- A geometry mapping `(tag : String, coordinates)`, the well-formed
input shape of `join_multi_single_type_mappings`. -/
def taggedGeo (t : String) (c : GVal) : GVal :=
  .obj (some (.str t)) (some c) none none none

/-- The midpoint-deviation bound between two curve parameters: the chord
between the curve points at `ta` and `tb` stays within squared distance
`d * d` of the analytically evaluated curve point at the chord's midpoint
parameter `(ta + tb) / 2`.  This is exactly the (sqrt-free) test
`flattening.subdiv` applies before yielding an endpoint. -/
def WithinFlatteningTolerance (c : Bezier4P) (d : ℚ) (ta tb : ℚ) : Prop :=
  Pt.distSq ((c.getCurvePoint ta).lerp (c.getCurvePoint tb))
      (c.getCurvePoint ((ta + tb) / 2)) < d * d

/-! # Theorems -/

/-- **C1** (settled: the code contradicts the claim).  The claim states
that `parse` raises `UnknownType` exactly when the `type` value is
outside the nine recognized tags, and `MissingKey` when the required
type-specific key is absent.  Because line 305 tests the builtin `type`
instead of the local `type_`, `parse` raises the `UnknownType` error
(`TypeError: Invalid type "Point"`) for the recognized tag `Point` both
with its required `coordinates` key present and (where the claim demands
`MissingKey`) absent. -/
theorem claim_C1_parse_unknown_type_for_recognized_tag :
    parse pointMapping = .error (.unknownType (.str "Point")) ∧
    parse pointNoCoordinates = .error (.unknownType (.str "Point")) :=
  ⟨rfl, rfl⟩

/-- **C2** (settled: the code contradicts the claim).  The claim states
that `rebuild (parse x) = x` (up to hole-wrapper omission) for every
mapping `x` accepted by `parse`.  The mapping
`{'type': 'Feature', 'geometry': None}` is accepted by `parse`
(unchanged), but `_rebuild` then calls itself on the null geometry and
`dict(None)` raises `TypeError`, so the round trip fails on this accepted
input. -/
theorem claim_C2_rebuild_after_parse_fails_on_accepted_input :
    parse featureNull = .ok featureNull ∧
    rebuild featureNull = .error .typeError :=
  ⟨rfl, rfl⟩

/-- **C5** (settled: the code contradicts the claim).  The claim states
that leaf iteration descends through a `FeatureCollection` into its
features.  The accepted mapping `{'type': 'FeatureCollection',
'features': [{'type': 'Feature', 'geometry': None}]}` parses unchanged,
but `_iter` passes the feature LIST itself to the recursive call, whose
first statement subscripts the list with the string `'type'` and raises
`TypeError`. -/
theorem claim_C5_iteration_fails_on_feature_collection :
    parse featureCollection1 = .ok featureCollection1 ∧
    iterLeaves featureCollection1 = .error .typeError :=
  ⟨rfl, rfl⟩

/-- **C6** (settled: the code contradicts the claim).  The claim states
that a hatch with one external 4-point boundary and fill style
"outermost" maps to a single `Polygon` with no holes, and that a hatch
with zero boundary paths fails with an error.  Line 468 reads
`hatch.dxf.hath_style` — a misspelling of `hatch_style`, which is not a
DXF attribute the hatch defines — so BOTH hatches fail with the attribute
error before any boundary processing (the zero-boundary hatch thus fails,
but not through the intended `ValueError('HATCH without any boundary
path.')`). -/
theorem claim_C6_hatch_mapping_hits_misspelled_attribute :
    hatchAsPolygon hatchOneExternal (1/10) false
      = .error (.attributeError "hath_style") ∧
    mapping (.hatch hatchNoBoundary) (1/10) false
      = .error (.attributeError "hath_style") :=
  ⟨rfl, rfl⟩

/-- **C8** (confirmed).  For every curve constructed from exactly 4
control points, `point(0)` is exactly the first control point and
`point(1)` is exactly the fourth. -/
theorem claim_C8_point_endpoint_exactness (a b c d : Pt)
    (cur : Bezier4P)
    (h : Bezier4P.fromDefpoints [a, b, c, d] = .ok cur) :
    cur.point 0 = .ok a ∧ cur.point 1 = .ok d := by
  have hcur : cur = ⟨a, b, c, d⟩ := by
    simpa [Bezier4P.fromDefpoints] using h.symm
  subst hcur
  constructor
  · show Bezier4P.point _ 0 = _
    simp only [Bezier4P.point, Bezier4P.checkIfInValidRange]
    norm_num [Bezier4P.getCurvePoint, bernstein3, Pt.add, Pt.smul,
      Bind.bind, Except.bind]
  · show Bezier4P.point _ 1 = _
    simp only [Bezier4P.point, Bezier4P.checkIfInValidRange]
    norm_num [Bezier4P.getCurvePoint, bernstein3, Pt.add, Pt.smul,
      Bind.bind, Except.bind]

/-- Witness for C8 at a concrete curve. -/
theorem claim_C8_point_endpoint_exactness_witness :
    curveFixture.point 0 = .ok ⟨0, 0, 0⟩ ∧
    curveFixture.point 1 = .ok ⟨3, 0, 0⟩ :=
  claim_C8_point_endpoint_exactness ⟨0, 0, 0⟩ ⟨1, 1, 0⟩ ⟨2, -1, 0⟩
    ⟨3, 0, 0⟩ curveFixture rfl

/-- Componentwise extensionality for `Pt`. -/
theorem Pt.ext_xyz {a b : Pt} (hx : a.x = b.x) (hy : a.y = b.y)
    (hz : a.z = b.z) : a = b := by
  cases a; cases b; simp_all

/-- The Bernstein basis at `t = 0` selects the first control point
exactly. -/
theorem getCurvePoint_zero (c : Bezier4P) : c.getCurvePoint 0 = c.b1 := by
  refine Pt.ext_xyz ?_ ?_ ?_ <;>
    simp [Bezier4P.getCurvePoint, bernstein3, Pt.add, Pt.smul]

/-- The Bernstein basis at `t = 1` selects the fourth control point
exactly. -/
theorem getCurvePoint_one (c : Bezier4P) : c.getCurvePoint 1 = c.b4 := by
  refine Pt.ext_xyz ?_ ?_ ?_ <;>
    simp [Bezier4P.getCurvePoint, bernstein3, Pt.add, Pt.smul]

/-- The endpoint selection of a loop iteration always lands on the
analytic curve point of the selected parameter (at `t1 = 1` the source
uses the fourth control point, which equals `point(1)` exactly). -/
theorem loopTarget_eq (c : Bezier4P) (t1 : ℚ) :
    Bezier4P.loopTarget c t1 = (c.getCurvePoint t1, t1) := by
  unfold Bezier4P.loopTarget
  by_cases h : t1 = 1
  · subst h
    rw [if_pos rfl, getCurvePoint_one]
  · rw [if_neg h]

/-- Chains concatenate through a shared last/first element. -/
theorem chain_append_last {R : ℚ → ℚ → Prop} :
    ∀ (l1 : List ℚ) (a m : ℚ) (l2 : List ℚ),
      List.Chain R a l1 → l1.getLast? = some m → List.Chain R m l2 →
      List.Chain R a (l1 ++ l2) := by
  intro l1
  induction l1 with
  | nil =>
    intro a m l2 _ hlast _
    simp at hlast
  | cons x xs ih =>
    intro a m l2 hchain hlast h2
    cases hchain with
    | cons hax hxs =>
      cases xs with
      | nil =>
        have hxm : x = m := by simpa using hlast
        subst hxm
        exact List.Chain.cons hax h2
      | cons y ys =>
        have hlast' : (y :: ys).getLast? = some m := by
          simpa [List.getLast?] using hlast
        exact List.Chain.cons hax (ih x m l2 hxs hlast' h2)

/-- Soundness of `flattening.subdiv`: every produced vertex list consists
of curve points at a parameter chain whose every adjacent pair passed the
midpoint-deviation check, and it ends at the right endpoint. -/
theorem subdiv_sound (c : Bezier4P) (d : ℚ) :
    ∀ (fuel : ℕ) (t0 t1 : ℚ) (l : List Pt),
      Bezier4P.subdiv c d fuel (c.getCurvePoint t0) (c.getCurvePoint t1)
          t0 t1 = some l →
      ∃ ts : List ℚ, l = ts.map c.getCurvePoint ∧
        ts.getLast? = some t1 ∧
        List.Chain (WithinFlatteningTolerance c d) t0 ts := by
  intro fuel
  induction fuel with
  | zero =>
    intro t0 t1 l h
    exact absurd h (by simp [Bezier4P.subdiv])
  | succ f ih =>
    intro t0 t1 l h
    simp only [Bezier4P.subdiv] at h
    by_cases hc : Bezier4P.deviationOk d
        ((c.getCurvePoint t0).lerp (c.getCurvePoint t1))
        (c.getCurvePoint ((t0 + t1) * (1/2))) = true
    · rw [if_pos hc] at h
      injection h with h'
      refine ⟨[t1], by simp [h'.symm], by simp, ?_⟩
      refine List.Chain.cons ?_ List.Chain.nil
      simp only [Bezier4P.deviationOk] at hc
      have hok := of_decide_eq_true hc
      unfold WithinFlatteningTolerance
      have heq : (t0 + t1) / 2 = (t0 + t1) * (1/2) := by ring
      rw [heq]
      exact hok.2
    · rw [if_neg hc] at h
      cases h1 : Bezier4P.subdiv c d f (c.getCurvePoint t0)
          (c.getCurvePoint ((t0 + t1) * (1/2))) t0 ((t0 + t1) * (1/2)) with
      | none =>
        rw [h1] at h
        exact absurd h (by simp [Bind.bind, Option.bind])
      | some l1 =>
        rw [h1] at h
        cases h2 : Bezier4P.subdiv c d f
            (c.getCurvePoint ((t0 + t1) * (1/2))) (c.getCurvePoint t1)
            ((t0 + t1) * (1/2)) t1 with
        | none =>
          rw [h2] at h
          exact absurd h (by simp [Bind.bind, Option.bind])
        | some l2 =>
          rw [h2] at h
          simp only [Bind.bind, Option.bind] at h
          injection h with h'
          obtain ⟨ts1, hm1, hlast1, hchain1⟩ := ih t0 _ l1 h1
          obtain ⟨ts2, hm2, hlast2, hchain2⟩ := ih _ t1 l2 h2
          refine ⟨ts1 ++ ts2, ?_, ?_, ?_⟩
          · rw [← h', hm1, hm2, List.map_append]
          · have hne : ts2 ≠ [] := by
              intro hnil
              rw [hnil] at hlast2
              simp at hlast2
            rw [List.getLast?_append_of_ne_nil ts1 hne]
            exact hlast2
          · exact chain_append_last ts1 t0 _ ts2 hchain1 hlast1 hchain2

/-- Soundness of the `flattening` loop: every produced vertex list
consists of curve points at a parameter chain rooted at `t0` whose every
adjacent pair passed the midpoint-deviation check. -/
theorem flatteningLoop_sound (c : Bezier4P) (d dt : ℚ) (sf : ℕ) :
    ∀ (fuel : ℕ) (t0 : ℚ) (l : List Pt),
      Bezier4P.flatteningLoop c d dt sf fuel t0 (c.getCurvePoint t0)
          = some l →
      ∃ ts : List ℚ, l = ts.map c.getCurvePoint ∧
        List.Chain (WithinFlatteningTolerance c d) t0 ts := by
  intro fuel
  induction fuel with
  | zero =>
    intro t0 l h
    simp only [Bezier4P.flatteningLoop] at h
    by_cases ht : t0 < 1
    · rw [if_pos ht] at h
      exact absurd h (by simp)
    · rw [if_neg ht] at h
      injection h with h'
      exact ⟨[], by simp [h'.symm], List.Chain.nil⟩
  | succ f ih =>
    intro t0 l h
    simp only [Bezier4P.flatteningLoop] at h
    by_cases ht : t0 < 1
    · rw [if_pos ht, loopTarget_eq] at h
      cases h1 : Bezier4P.subdiv c d sf (c.getCurvePoint t0)
          (c.getCurvePoint (t0 + dt)) t0 (t0 + dt) with
      | none =>
        rw [h1] at h
        exact absurd h (by simp [Bind.bind, Option.bind])
      | some seg =>
        rw [h1] at h
        cases h2 : Bezier4P.flatteningLoop c d dt sf f (t0 + dt)
            (c.getCurvePoint (t0 + dt)) with
        | none =>
          rw [h2] at h
          exact absurd h (by simp [Bind.bind, Option.bind])
        | some rest =>
          rw [h2] at h
          simp only [Bind.bind, Option.bind] at h
          injection h with h'
          obtain ⟨ts1, hm1, hlast1, hchain1⟩ := subdiv_sound c d sf t0 _ seg h1
          obtain ⟨ts2, hm2, hchain2⟩ := ih (t0 + dt) rest h2
          refine ⟨ts1 ++ ts2, ?_, ?_⟩
          · rw [← h', hm1, hm2, List.map_append]
          · exact chain_append_last ts1 t0 _ ts2 hchain1 hlast1 hchain2
    · rw [if_neg ht] at h
      injection h with h'
      exact ⟨[], by simp [h'.symm], List.Chain.nil⟩

/-- **C4** (confirmed).  Every vertex list produced by
`flattening(distance, segments)` starts with the first control point, and
its vertices are the analytic curve points of an increasing parameter
chain starting at 0 in which every adjacent pair passed the
midpoint-deviation check: the chord between two consecutive produced
vertices stays within (squared) distance `d*d` of the analytically
evaluated curve point at the chord's midpoint parameter. -/
theorem claim_C4_flattening_deviation_bound (c : Bezier4P) (d : ℚ)
    (segments loopFuel subdivFuel : ℕ) (res : List Pt)
    (hd : 0 < d)
    (h : c.flattening d segments loopFuel subdivFuel = some res) :
    ∃ ts : List ℚ,
      res = c.b1 :: ts.map c.getCurvePoint ∧
      List.Chain (WithinFlatteningTolerance c d) 0 ts := by
  simp only [Bezier4P.flattening] at h
  cases h1 : Bezier4P.flatteningLoop c d (1 / (segments : ℚ)) subdivFuel
      loopFuel 0 c.b1 with
  | none =>
    rw [h1] at h
    exact absurd h (by simp [Bind.bind, Option.bind])
  | some rest =>
    rw [h1] at h
    simp only [Bind.bind, Option.bind] at h
    injection h with h'
    rw [← getCurvePoint_zero c] at h1
    obtain ⟨ts, hm, hchain⟩ :=
      flatteningLoop_sound c d (1 / (segments : ℚ)) subdivFuel loopFuel 0
        rest h1
    exact ⟨ts, by rw [← h', hm], hchain⟩

/-- Witness for C4: flattening the fixture curve with `d = 2` and one
segment yields exactly the two endpoints, whose single chord passes the
midpoint-deviation check at parameter `1/2`. -/
theorem claim_C4_flattening_deviation_bound_witness :
    (0 : ℚ) < 2 ∧
    ∃ ts : List ℚ,
      [(⟨0, 0, 0⟩ : Pt), ⟨3, 0, 0⟩]
          = curveFixture.b1 :: ts.map curveFixture.getCurvePoint ∧
      List.Chain (WithinFlatteningTolerance curveFixture 2) 0 ts := by
  refine ⟨by norm_num,
    claim_C4_flattening_deviation_bound curveFixture 2 1 2 2
      [⟨0, 0, 0⟩, ⟨3, 0, 0⟩] (by norm_num) ?_⟩
  norm_num [Bezier4P.flattening, Bezier4P.flatteningLoop,
    Bezier4P.loopTarget, Bezier4P.subdiv, Bezier4P.deviationOk,
    Bezier4P.getCurvePoint, bernstein3, Pt.lerp, Pt.add, Pt.sub, Pt.smul,
    Pt.distSq, curveFixture, Bind.bind, Option.bind]

/-- Exact second-difference identity for the cubic: the squared deviation
between the chord midpoint and the curve point at the midpoint parameter
is `9 * ((t1-t0)/2)^4` times the squared norm of the convex mix of the
two control-point second differences at the midpoint parameter. -/
theorem devSq_eq (c : Bezier4P) (t0 t1 : ℚ) :
    Pt.distSq ((c.getCurvePoint t0).lerp (c.getCurvePoint t1))
        (c.getCurvePoint ((t0 + t1) * (1/2)))
      = 9 * ((t1 - t0) * (1/2))^4 * mixSq c ((t0 + t1) * (1/2)) := by
  simp only [Bezier4P.getCurvePoint, bernstein3, Pt.lerp, Pt.add, Pt.sub,
    Pt.smul, Pt.distSq, mixSq, sqNorm, secondDiffA, secondDiffB]
  ring

/-- Jensen-type bound for one coordinate of the convex mix. -/
theorem convex_sq_le (m a b : ℚ) (h0 : 0 ≤ m) (h1 : m ≤ 1) :
    ((1 - m) * a + m * b) * ((1 - m) * a + m * b) ≤ a * a + b * b := by
  nlinarith [mul_nonneg (mul_nonneg h0 (by linarith : (0:ℚ) ≤ 1 - m))
      (sq_nonneg (a - b)),
    mul_nonneg h0 (sq_nonneg a),
    mul_nonneg (by linarith : (0:ℚ) ≤ 1 - m) (sq_nonneg b)]

/-- On `[0, 1]` the mixed second difference is bounded by the curvature
bound. -/
theorem mixSq_le (c : Bezier4P) (m : ℚ) (h0 : 0 ≤ m) (h1 : m ≤ 1) :
    mixSq c m ≤ curvatureBound c := by
  have hx := convex_sq_le m (secondDiffA c).x (secondDiffB c).x h0 h1
  have hy := convex_sq_le m (secondDiffA c).y (secondDiffB c).y h0 h1
  have hz := convex_sq_le m (secondDiffA c).z (secondDiffB c).z h0 h1
  simp only [mixSq, curvatureBound, sqNorm]
  linarith

/-- The curvature bound is nonnegative. -/
theorem curvatureBound_nonneg (c : Bezier4P) : 0 ≤ curvatureBound c := by
  unfold curvatureBound sqNorm
  nlinarith [mul_self_nonneg (secondDiffA c).x,
    mul_self_nonneg (secondDiffA c).y, mul_self_nonneg (secondDiffA c).z,
    mul_self_nonneg (secondDiffB c).x, mul_self_nonneg (secondDiffB c).y,
    mul_self_nonneg (secondDiffB c).z]

/-- Quantitative deviation bound: the squared midpoint deviation of the
chord over `[t0, t1] ⊆ [0, 1]` is at most
`9 * ((t1-t0)/2)^4 * curvatureBound`. -/
theorem devSq_le (c : Bezier4P) (t0 t1 : ℚ) (h0 : 0 ≤ t0) (h01 : t0 ≤ t1)
    (h1 : t1 ≤ 1) :
    Pt.distSq ((c.getCurvePoint t0).lerp (c.getCurvePoint t1))
        (c.getCurvePoint ((t0 + t1) * (1/2)))
      ≤ 9 * ((t1 - t0) * (1/2))^4 * curvatureBound c := by
  rw [devSq_eq]
  have hm0 : 0 ≤ (t0 + t1) * (1/2) := by linarith
  have hm1 : (t0 + t1) * (1/2) ≤ 1 := by linarith
  have hmix := mixSq_le c ((t0 + t1) * (1/2)) hm0 hm1
  have h9 : (0:ℚ) ≤ 9 * ((t1 - t0) * (1/2))^4 := by positivity
  exact mul_le_mul_of_nonneg_left hmix h9

/-- One-step unfolding of `subdiv` at positive fuel. -/
theorem subdiv_succ (c : Bezier4P) (d : ℚ) (f : ℕ) (sp ep : Pt)
    (t0 t1 : ℚ) :
    Bezier4P.subdiv c d (f + 1) sp ep t0 t1
      = if Bezier4P.deviationOk d (sp.lerp ep)
            (c.getCurvePoint ((t0 + t1) * (1/2))) = true
        then some [ep]
        else
          (Bezier4P.subdiv c d f sp (c.getCurvePoint ((t0 + t1) * (1/2)))
              t0 ((t0 + t1) * (1/2))).bind fun l =>
            (Bezier4P.subdiv c d f (c.getCurvePoint ((t0 + t1) * (1/2)))
                ep ((t0 + t1) * (1/2)) t1).bind fun r =>
              some (l ++ r) := rfl

/-- Termination of the recursive bisection: as soon as the deviation
bound for the interval drops below `16^f * d²`, fuel `f + 1` suffices,
because each halving divides the quartic bound by 16. -/
theorem subdiv_terminates (c : Bezier4P) (d : ℚ) (hd : 0 < d) :
    ∀ (f : ℕ) (t0 t1 : ℚ), 0 ≤ t0 → t0 < t1 → t1 ≤ 1 →
      9 * ((t1 - t0) * (1/2))^4 * curvatureBound c < 16^f * (d * d) →
      ∃ l, Bezier4P.subdiv c d (f + 1) (c.getCurvePoint t0)
          (c.getCurvePoint t1) t0 t1 = some l := by
  intro f
  induction f with
  | zero =>
    intro t0 t1 h0 h01 h1 hb
    have hdev := lt_of_le_of_lt (devSq_le c t0 t1 h0 (le_of_lt h01) h1)
      (by simpa using hb)
    have hc : Bezier4P.deviationOk d
        ((c.getCurvePoint t0).lerp (c.getCurvePoint t1))
        (c.getCurvePoint ((t0 + t1) * (1/2))) = true := by
      simp only [Bezier4P.deviationOk]
      exact decide_eq_true ⟨hd, hdev⟩
    exact ⟨[c.getCurvePoint t1], by rw [subdiv_succ, if_pos hc]⟩
  | succ f ih =>
    intro t0 t1 h0 h01 h1 hb
    by_cases hc : Bezier4P.deviationOk d
        ((c.getCurvePoint t0).lerp (c.getCurvePoint t1))
        (c.getCurvePoint ((t0 + t1) * (1/2))) = true
    · exact ⟨[c.getCurvePoint t1], by rw [subdiv_succ, if_pos hc]⟩
    · have hhalf : ∀ s : ℚ, s = (t1 - t0) * (1/2) →
          9 * (s * (1/2))^4 * curvatureBound c < 16^f * (d * d) := by
        intro s hs
        have hkey : 9 * (s * (1/2))^4 * curvatureBound c
            = (9 * s^4 * curvatureBound c) * (1/16) := by ring
        have hb' : 9 * ((t1 - t0) * (1/2))^4 * curvatureBound c
            < 16^(f+1) * (d * d) := hb
        rw [hkey, hs]
        have h16 : ((16:ℚ)^(f+1) * (d * d)) * (1/16) = 16^f * (d * d) := by
          rw [pow_succ]
          ring
        calc (9 * ((t1 - t0) * (1/2))^4 * curvatureBound c) * (1/16)
            < (16^(f+1) * (d * d)) * (1/16) := by linarith
          _ = 16^f * (d * d) := h16
      have hm1 : t0 < (t0 + t1) * (1/2) := by linarith
      have hm2 : (t0 + t1) * (1/2) < t1 := by linarith
      obtain ⟨l1, hl1⟩ := ih t0 ((t0 + t1) * (1/2)) h0 hm1
        (by linarith) (hhalf _ (by ring))
      obtain ⟨l2, hl2⟩ := ih ((t0 + t1) * (1/2)) t1 (by linarith) hm2 h1
        (hhalf _ (by ring))
      refine ⟨l1 ++ l2, ?_⟩
      rw [subdiv_succ, if_neg hc, hl1]
      simp only [Option.some_bind]
      rw [hl2]
      simp only [Option.some_bind]

/-- One-step unfolding of the flattening loop at fuel 0. -/
theorem flatteningLoop_zero (c : Bezier4P) (d dt : ℚ) (sf : ℕ) (t0 : ℚ)
    (sp : Pt) :
    Bezier4P.flatteningLoop c d dt sf 0 t0 sp
      = if t0 < 1 then none else some [] := rfl

/-- One-step unfolding of the flattening loop at positive fuel. -/
theorem flatteningLoop_succ (c : Bezier4P) (d dt : ℚ) (sf f : ℕ)
    (t0 : ℚ) (sp : Pt) :
    Bezier4P.flatteningLoop c d dt sf (f + 1) t0 sp
      = if t0 < 1 then
          (Bezier4P.subdiv c d sf sp (Bezier4P.loopTarget c (t0 + dt)).1
              t0 (Bezier4P.loopTarget c (t0 + dt)).2).bind fun seg =>
            (Bezier4P.flatteningLoop c d dt sf f
                (Bezier4P.loopTarget c (t0 + dt)).2
                (Bezier4P.loopTarget c (t0 + dt)).1).bind fun rest =>
              some (seg ++ rest)
        else some [] := rfl

/-- Unfolding of `flattening` into its loop. -/
theorem flattening_def (c : Bezier4P) (d : ℚ) (segments lf sf : ℕ) :
    Bezier4P.flattening c d segments lf sf
      = (Bezier4P.flatteningLoop c d (1 / (segments : ℚ)) sf lf 0
          c.b1).bind fun rest => some (c.b1 :: rest) := rfl

/-- Termination of the flattening loop: with `dt = 1/n`, starting at
`t0 = 1 - j/n` and any subdivision fuel that handles width-`1/n`
intervals, loop fuel `j` suffices. -/
theorem flatteningLoop_terminates (c : Bezier4P) (d : ℚ) (n : ℕ)
    (hn : 1 ≤ n) (sf : ℕ)
    (hsub : ∀ t0 t1 : ℚ, 0 ≤ t0 → t0 < t1 → t1 ≤ 1 →
      t1 - t0 = 1 / (n : ℚ) →
      ∃ l, Bezier4P.subdiv c d sf (c.getCurvePoint t0)
          (c.getCurvePoint t1) t0 t1 = some l) :
    ∀ (j : ℕ), j ≤ n →
      ∃ l, Bezier4P.flatteningLoop c d (1 / (n : ℚ)) sf j
          (1 - (j : ℚ) / (n : ℚ))
          (c.getCurvePoint (1 - (j : ℚ) / (n : ℚ))) = some l := by
  have hnq : (0:ℚ) < (n : ℚ) := by exact_mod_cast hn
  have hne : (n : ℚ) ≠ 0 := ne_of_gt hnq
  intro j
  induction j with
  | zero =>
    intro _
    refine ⟨[], ?_⟩
    rw [flatteningLoop_zero, if_neg]
    push_cast
    norm_num
  | succ j ih =>
    intro hj
    have hj' : j ≤ n := le_trans (Nat.le_succ j) hj
    have hcast : ((j + 1 : ℕ) : ℚ) = (j : ℚ) + 1 := by push_cast; ring
    have hjn : ((j:ℚ) + 1) ≤ (n : ℚ) := by exact_mod_cast hj
    have ht0 : (0:ℚ) ≤ 1 - ((j:ℚ) + 1) / (n : ℚ) := by
      rw [sub_nonneg, div_le_one hnq]
      exact hjn
    have hlt : 1 - ((j:ℚ) + 1) / (n : ℚ) < 1 := by
      have : (0:ℚ) < ((j:ℚ) + 1) / (n : ℚ) := by positivity
      linarith
    have ht1eq : (1 - ((j:ℚ) + 1) / (n : ℚ)) + 1 / (n : ℚ)
        = 1 - (j : ℚ) / (n : ℚ) := by
      field_simp
      ring
    have hle1 : 1 - (j : ℚ) / (n : ℚ) ≤ 1 := by
      have : (0:ℚ) ≤ (j : ℚ) / (n : ℚ) := by positivity
      linarith
    have hwidth : (1 - (j : ℚ) / (n : ℚ))
        - (1 - ((j:ℚ) + 1) / (n : ℚ)) = 1 / (n : ℚ) := by
      field_simp
    have hstep : 1 - ((j:ℚ) + 1) / (n : ℚ) < 1 - (j : ℚ) / (n : ℚ) := by
      rw [← ht1eq]
      have h1n : (0:ℚ) < 1 / (n : ℚ) := by positivity
      linarith
    obtain ⟨seg, hseg⟩ := hsub (1 - ((j:ℚ) + 1) / (n : ℚ))
      (1 - (j : ℚ) / (n : ℚ)) ht0 hstep hle1 hwidth
    obtain ⟨rest, hrest⟩ := ih hj'
    refine ⟨seg ++ rest, ?_⟩
    rw [hcast, flatteningLoop_succ, if_pos hlt, ht1eq, loopTarget_eq]
    dsimp only
    rw [hseg]
    simp only [Option.some_bind]
    rw [hrest]
    simp only [Option.some_bind]

/-- **C9** (confirmed).  For every cubic curve, every `max_distance > 0`
and every `min_segments ≥ 1`, the adaptive flattening terminates: there
is enough fuel for the `while` loop and for the recursive bisection to
produce a result, because the quartic midpoint-deviation bound of a cubic
shrinks by a factor 16 per halving while the threshold `d²` is fixed. -/
theorem claim_C9_flattening_terminates (c : Bezier4P) (d : ℚ)
    (segments : ℕ) (hd : 0 < d) (hs : 1 ≤ segments) :
    ∃ (loopFuel subdivFuel : ℕ) (res : List Pt),
      c.flattening d segments loopFuel subdivFuel = some res := by
  obtain ⟨f, hf⟩ := pow_unbounded_of_one_lt
    ((9 * ((1 / (segments : ℚ)) * (1/2))^4 * curvatureBound c) / (d * d))
    (by norm_num : (1:ℚ) < 16)
  have hdd : (0:ℚ) < d * d := mul_pos hd hd
  have hb : 9 * ((1 / (segments : ℚ)) * (1/2))^4 * curvatureBound c
      < 16^f * (d * d) := (div_lt_iff₀ hdd).mp hf
  have hsub : ∀ t0 t1 : ℚ, 0 ≤ t0 → t0 < t1 → t1 ≤ 1 →
      t1 - t0 = 1 / (segments : ℚ) →
      ∃ l, Bezier4P.subdiv c d (f + 1) (c.getCurvePoint t0)
          (c.getCurvePoint t1) t0 t1 = some l := by
    intro t0 t1 h0 h01 h1 heq
    exact subdiv_terminates c d hd f t0 t1 h0 h01 h1 (by rw [heq]; exact hb)
  obtain ⟨l, hl⟩ := flatteningLoop_terminates c d segments hs (f + 1) hsub
    segments (le_refl _)
  have hnq : (0:ℚ) < (segments : ℚ) := by exact_mod_cast hs
  have h00 : (1:ℚ) - (segments : ℚ) / (segments : ℚ) = 0 := by
    field_simp
  rw [h00, getCurvePoint_zero] at hl
  refine ⟨segments, f + 1, c.b1 :: l, ?_⟩
  rw [flattening_def, hl]
  simp only [Option.some_bind]

/-- Witness for C9: the fixture curve with `d = 2` and the default 4
minimum segments admits fuel making `flattening` produce a result. -/
theorem claim_C9_flattening_terminates_witness :
    (0:ℚ) < 2 ∧ 1 ≤ 4 ∧
    ∃ (loopFuel subdivFuel : ℕ) (res : List Pt),
      curveFixture.flattening 2 4 loopFuel subdivFuel = some res :=
  ⟨by norm_num, by norm_num,
    claim_C9_flattening_terminates curveFixture 2 4 (by norm_num)
      (by norm_num)⟩

/-- Reversing an edge negates its shoelace term. -/
theorem shoelaceTerm_swap (a b : Pt) : shoelaceTerm b a = -shoelaceTerm a b := by
  simp only [shoelaceTerm]; ring

/-- A degenerate edge contributes nothing. -/
theorem shoelaceTerm_self (a : Pt) : shoelaceTerm a a = 0 := by
  simp only [shoelaceTerm]; ring

/-- Appending one vertex adds one closing edge term to the open sum. -/
theorem pathSum_snoc (l : List Pt) (a : Pt) :
    pathSum (l ++ [a])
      = pathSum l + (l.getLast?).elim 0 (fun b => shoelaceTerm b a) := by
  induction l with
  | nil => simp [pathSum]
  | cons b l ih =>
    match l with
    | [] => simp [pathSum]
    | c :: rest =>
      have : pathSum ((b :: c :: rest) ++ [a])
          = shoelaceTerm b c + pathSum ((c :: rest) ++ [a]) := rfl
      rw [this, ih]
      have hl : (b :: c :: rest).getLast? = (c :: rest).getLast? := by
        simp [List.getLast?]
      rw [hl]
      show _ = shoelaceTerm b c + pathSum (c :: rest) + _
      ring

/-- Reversing a vertex path negates its open shoelace sum. -/
theorem pathSum_reverse (l : List Pt) : pathSum l.reverse = -pathSum l := by
  induction l with
  | nil => simp [pathSum]
  | cons a l ih =>
    rw [List.reverse_cons, pathSum_snoc, ih, List.getLast?_reverse]
    match l with
    | [] => simp [pathSum]
    | b :: rest =>
      show -pathSum (b :: rest) + (Option.elim (some b) 0 _)
          = -(pathSum (a :: b :: rest))
      show -pathSum (b :: rest) + shoelaceTerm b a
          = -(shoelaceTerm a b + pathSum (b :: rest))
      rw [shoelaceTerm_swap]
      ring

/-- The cyclic edge sum equals the open sum plus the closing edge. -/
theorem signedAreaAux_eq (first : Pt) :
    ∀ (l : List Pt) (prev : Pt),
      signedAreaAux first prev l
        = pathSum (prev :: l)
          + shoelaceTerm ((prev :: l).getLast (List.cons_ne_nil _ _))
              first := by
  intro l
  induction l with
  | nil => intro prev; simp [signedAreaAux, pathSum, List.getLast]
  | cons q rest ih =>
    intro prev
    show shoelaceTerm prev q + signedAreaAux first q rest = _
    rw [ih q]
    have hp : pathSum (prev :: q :: rest)
        = shoelaceTerm prev q + pathSum (q :: rest) := rfl
    have hl : (prev :: q :: rest).getLast (List.cons_ne_nil _ _)
        = (q :: rest).getLast (List.cons_ne_nil _ _) :=
      List.getLast_cons _
    rw [hp, hl]
    ring

/-- For a closed ring the cyclic signed area equals the open shoelace
sum: the closing edge is degenerate. -/
theorem signedArea2_closed (ring : List Pt) (h : IsClosedRing ring) :
    signedArea2 ring = pathSum ring := by
  match ring with
  | [] => rfl
  | p :: l =>
    show signedAreaAux p p l = _
    rw [signedAreaAux_eq p l p]
    have hlast : (p :: l).getLast (List.cons_ne_nil _ _) = p := by
      have h1 : (p :: l).getLast? = some p := by
        unfold IsClosedRing at h
        simp only [List.head?_cons] at h
        exact h.symm
      exact Option.some_injective _
        (by rw [← List.getLast?_eq_getLast (p :: l) (List.cons_ne_nil _ _)]
            exact h1)
    rw [hlast, shoelaceTerm_self, add_zero]

/-- `closeIfOpen` of a nonempty list is a closed ring. -/
theorem closeIfOpen_closed (p : Pt) (rest : List Pt) :
    IsClosedRing (closeIfOpen (p :: rest)) := by
  show ((if (p :: rest).getLast? = some p then p :: rest
      else (p :: rest) ++ [p]) : List Pt).head?
    = (if (p :: rest).getLast? = some p then p :: rest
      else (p :: rest) ++ [p]).getLast?
  by_cases h : (p :: rest).getLast? = some p
  · simp [h]
  · rw [if_neg h, List.getLast?_concat]
    simp

/-- Reversal preserves closedness. -/
theorem IsClosedRing_reverse {l : List Pt} (h : IsClosedRing l) :
    IsClosedRing l.reverse := by
  unfold IsClosedRing at h ⊢
  rw [List.head?_reverse, List.getLast?_reverse]
  exact h.symm

/-- Reversing a closed ring negates its signed area. -/
theorem signedArea2_reverse_closed {l : List Pt} (h : IsClosedRing l) :
    signedArea2 l.reverse = -signedArea2 l := by
  rw [signedArea2_closed l.reverse (IsClosedRing_reverse h),
    signedArea2_closed l h, pathSum_reverse]

/-- The structural guarantees of a successful `linear_ring`: the result
is a closed ring whose signed area is nonnegative for `ccw = true` and
nonpositive for `ccw = false`. -/
theorem linear_ring_ok_props (points : List Pt) (ccw : Bool)
    (ring : List Pt) (h : linear_ring points ccw = .ok ring) :
    IsClosedRing ring ∧ (ccw = true → 0 ≤ signedArea2 ring) ∧
      (ccw = false → signedArea2 ring ≤ 0) := by
  by_cases hlen : points.length < 3
  · rw [linear_ring, if_pos hlen] at h
    exact absurd h (by simp)
  · rw [linear_ring, if_neg hlen] at h
    simp only [] at h
    match points, hlen with
    | p :: rest, _ =>
      have hclosed : IsClosedRing (closeIfOpen (p :: rest)) :=
        closeIfOpen_closed p rest
      cases hcw : has_clockwise_orientation (closeIfOpen (p :: rest)) with
      | true =>
        have harea : signedArea2 (closeIfOpen (p :: rest)) < 0 :=
          of_decide_eq_true hcw
        cases ccw with
        | true =>
          rw [hcw] at h
          simp only [if_pos, if_true] at h
          have hring : ring = (closeIfOpen (p :: rest)).reverse := by
            injection h with h'; exact h'.symm
          subst hring
          refine ⟨IsClosedRing_reverse hclosed, fun _ => ?_, fun hf => by
            simp at hf⟩
          rw [signedArea2_reverse_closed hclosed]
          linarith
        | false =>
          rw [hcw] at h
          simp only [if_true, Bool.false_eq_true, if_false] at h
          have hring : ring = closeIfOpen (p :: rest) := by
            injection h with h'; exact h'.symm
          subst hring
          exact ⟨hclosed, fun ht => by simp at ht, fun _ => le_of_lt harea⟩
      | false =>
        have harea : 0 ≤ signedArea2 (closeIfOpen (p :: rest)) := by
          have := of_decide_eq_false hcw
          exact not_lt.mp this
        cases ccw with
        | true =>
          rw [hcw] at h
          simp only [Bool.false_eq_true, if_false, Bool.not_true] at h
          have hring : ring = closeIfOpen (p :: rest) := by
            injection h with h'; exact h'.symm
          subst hring
          exact ⟨hclosed, fun _ => harea, fun hf => by simp at hf⟩
        | false =>
          rw [hcw] at h
          simp only [Bool.false_eq_true, if_false, Bool.not_false,
            if_true] at h
          have hring : ring = (closeIfOpen (p :: rest)).reverse := by
            injection h with h'; exact h'.symm
          subst hring
          refine ⟨IsClosedRing_reverse hclosed, fun ht => by simp at ht,
            fun _ => ?_⟩
          rw [signedArea2_reverse_closed hclosed]
          linarith

/-- The hole rings produced by `polygonHoleRings` all come from
`linear_ring · false`. -/
theorem polygonHoleRings_ok (holes : List (List Pt)) :
    ∀ (hs : List GVal), polygonHoleRings holes = .ok hs →
      ∃ rs : List (List Pt),
        hs = rs.map (fun r => GVal.list (r.map .vec)) ∧
        ∀ r ∈ rs, IsClosedRing r ∧ signedArea2 r ≤ 0 := by
  induction holes with
  | nil =>
    intro hs h
    refine ⟨[], ?_, by simp⟩
    simp only [polygonHoleRings] at h
    injection h with h'
    simp [h'.symm]
  | cons hd tl ih =>
    intro hs h
    simp only [polygonHoleRings] at h
    cases h1 : linear_ring hd false with
    | error e => rw [h1] at h; exact absurd h (by simp [Bind.bind, Except.bind])
    | ok r =>
      rw [h1] at h
      cases h2 : polygonHoleRings tl with
      | error e =>
        rw [h2] at h; exact absurd h (by simp [Bind.bind, Except.bind])
      | ok rest =>
        rw [h2] at h
        simp only [Bind.bind, Except.bind] at h
        injection h with h'
        obtain ⟨rs, hrs, hprops⟩ := ih rest h2
        refine ⟨r :: rs, ?_, ?_⟩
        · simp [← h', hrs]
        · intro x hx
          rcases List.mem_cons.mp hx with hx | hx
          · subst hx
            have := linear_ring_ok_props hd false x h1
            exact ⟨this.1, this.2.2 rfl⟩
          · exact hprops x hx

/-- **C3** (corrected).  `linear_ring` fails with `TooFewVertices` below
3 points and otherwise returns a closed ring; the ring's signed area is
NONNEGATIVE for `ccw = true` and NONPOSITIVE for `ccw = false` — strictly
positive resp. negative exactly when the area is nonzero, which fails for
degenerate (zero-area) inputs such as collinear points (see the
counterexample).  Consequently every `Polygon` built by `polygon_mapping`
has a closed exterior ring of nonnegative area and closed hole rings of
nonpositive area. -/
theorem claim_C3_linear_ring_winding (points : List Pt) (ccw : Bool) :
    (points.length < 3 → linear_ring points ccw = .error .tooFewVertices) ∧
    (∀ ring, linear_ring points ccw = .ok ring →
      IsClosedRing ring ∧
      (ccw = true → 0 ≤ signedArea2 ring ∧
        (signedArea2 ring ≠ 0 → 0 < signedArea2 ring)) ∧
      (ccw = false → signedArea2 ring ≤ 0 ∧
        (signedArea2 ring ≠ 0 → signedArea2 ring < 0))) ∧
    (∀ (holes : List (List Pt)) (result : GVal),
      polygon_mapping points holes = .ok result →
      ∃ (ext : List Pt) (rs : List (List Pt)),
        result = .obj (some (.str "Polygon"))
          (some (if holes.isEmpty then GVal.list (ext.map .vec)
                 else GVal.list (GVal.list (ext.map .vec) ::
                        rs.map (fun r => GVal.list (r.map .vec)))))
          none none none ∧
        IsClosedRing ext ∧ 0 ≤ signedArea2 ext ∧
        ∀ r ∈ rs, IsClosedRing r ∧ signedArea2 r ≤ 0) := by
  refine ⟨?_, ?_, ?_⟩
  · intro hlen
    rw [linear_ring, if_pos hlen]
  · intro ring h
    have hp := linear_ring_ok_props points ccw ring h
    refine ⟨hp.1, fun ht => ⟨hp.2.1 ht, fun hne => ?_⟩,
      fun hf => ⟨hp.2.2 hf, fun hne => ?_⟩⟩
    · exact lt_of_le_of_ne (hp.2.1 ht) (Ne.symm hne)
    · exact lt_of_le_of_ne (hp.2.2 hf) hne
  · intro holes result h
    unfold polygon_mapping at h
    cases hext : linear_ring points true with
    | error e =>
      rw [hext] at h; exact absurd h (by simp [Bind.bind, Except.bind])
    | ok ext =>
      rw [hext] at h
      have hextp := linear_ring_ok_props points true ext hext
      by_cases hh : holes.isEmpty
      · simp only [Bind.bind, Except.bind, hh, Bool.not_true,
          Bool.false_eq_true, if_false, pure, Except.pure] at h
        refine ⟨ext, [], ?_, hextp.1, hextp.2.1 rfl, by simp⟩
        simp only [hh, if_pos, List.map_nil]
        injection h with h'
        exact h'.symm
      · simp only [Bind.bind, Except.bind, hh, Bool.not_false,
          if_true] at h
        cases hrs : polygonHoleRings holes with
        | error e => rw [hrs] at h; exact absurd h (by simp)
        | ok hs =>
          rw [hrs] at h
          simp only [pure, Except.pure] at h
          obtain ⟨rs, hrseq, hprops⟩ := polygonHoleRings_ok holes hs hrs
          refine ⟨ext, rs, ?_, hextp.1, hextp.2.1 rfl, hprops⟩
          simp only [hh, Bool.false_eq_true, if_false]
          injection h with h'
          rw [← h', hrseq]

/-- Witness for C3 at concrete inputs: a 2-point list fails with
`TooFewVertices`; the counter-clockwise unit-scale square is returned
closed with nonnegative area; `polygon_mapping` of the square with one
hole yields the closed nonnegative exterior and a closed nonpositive
hole. -/
theorem claim_C3_linear_ring_winding_witness :
    linear_ring [⟨0, 0, 0⟩, ⟨1, 0, 0⟩] true = .error .tooFewVertices ∧
    (IsClosedRing [⟨0, 0, 0⟩, ⟨10, 0, 0⟩, ⟨10, 10, 0⟩, ⟨0, 10, 0⟩,
        ⟨0, 0, 0⟩] ∧ True) := by
  constructor
  · exact (claim_C3_linear_ring_winding [⟨0, 0, 0⟩, ⟨1, 0, 0⟩] true).1
      (by norm_num)
  · refine ⟨?_, trivial⟩
    have h := ((claim_C3_linear_ring_winding sqPts true).2.1
      [⟨0, 0, 0⟩, ⟨10, 0, 0⟩, ⟨10, 10, 0⟩, ⟨0, 10, 0⟩, ⟨0, 0, 0⟩]
      (by norm_num [linear_ring, closeIfOpen, has_clockwise_orientation,
        signedArea2, signedAreaAux, shoelaceTerm, sqPts, List.getLast?]))
    exact h.1

/-- Counterexample to C3 as stated: for the collinear input
`(0,0) (1,1) (2,2)` with `ccw = true`, `linear_ring` succeeds but the
returned ring's signed area is zero, not positive. -/
theorem claim_C3_linear_ring_winding_counterexample :
    linear_ring collinearPts true
      = .ok [⟨0, 0, 0⟩, ⟨1, 1, 0⟩, ⟨2, 2, 0⟩, ⟨0, 0, 0⟩] ∧
    ¬ (0 < signedArea2 [⟨0, 0, 0⟩, ⟨1, 1, 0⟩, ⟨2, 2, 0⟩, ⟨0, 0, 0⟩]) := by
  constructor
  · norm_num [linear_ring, closeIfOpen, has_clockwise_orientation,
      signedArea2, signedAreaAux, shoelaceTerm, collinearPts,
      List.getLast?]
  · norm_num [signedArea2, signedAreaAux, shoelaceTerm]

/-- `pyEq (.str s) y` succeeds only on `.str s` itself. -/
theorem pyEq_str_elim {s : String} {y : GVal} (h : pyEq (.str s) y = true) :
    y = .str s := by
  cases y <;> simp [pyEq] at h
  subst h
  rfl

/-- A string member of the set stays a member after `setAdd`. -/
theorem mem_setAdd (s : List GVal) (x y : GVal) (h : y ∈ s) :
    y ∈ setAdd s x := by
  unfold setAdd
  by_cases hc : setContains s x <;> simp [hc, h]

/-- `setAdd` always leaves the added string in the set. -/
theorem str_mem_setAdd_self (s : List GVal) (t : String) :
    GVal.str t ∈ setAdd s (.str t) := by
  unfold setAdd
  by_cases hc : setContains s (.str t)
  · simp only [hc, if_true]
    obtain ⟨y, hy, hpy⟩ := List.any_eq_true.mp hc
    exact (pyEq_str_elim hpy) ▸ hy
  · simp [hc]

/-- Members of the accumulator survive the whole `foldl setAdd`. -/
theorem mem_foldl_setAdd (l : List GVal) :
    ∀ (acc : List GVal) (y : GVal), y ∈ acc → y ∈ l.foldl setAdd acc := by
  induction l with
  | nil => intro acc y h; simpa using h
  | cons x xs ih =>
    intro acc y h
    exact ih (setAdd acc x) y (mem_setAdd acc x y h)

/-- Every string element of the input ends up in the resulting set. -/
theorem str_mem_foldl_setAdd (t : String) (l : List GVal) :
    ∀ (acc : List GVal), GVal.str t ∈ l → GVal.str t ∈ l.foldl setAdd acc := by
  induction l with
  | nil => intro acc h; simp at h
  | cons x xs ih =>
    intro acc h
    rcases List.mem_cons.mp h with h | h
    · subst h
      exact mem_foldl_setAdd xs (setAdd acc (.str t)) _
        (str_mem_setAdd_self acc t)
    · exact ih (setAdd acc x) h

/-- Folding a list of copies of one tag into the singleton set is the
identity. -/
theorem foldl_setAdd_const (t : String) (l : List GVal)
    (h : ∀ x ∈ l, x = GVal.str t) :
    l.foldl setAdd [GVal.str t] = [GVal.str t] := by
  induction l with
  | nil => rfl
  | cons x xs ih =>
    have hx : x = GVal.str t := h x (by simp)
    subst hx
    have hadd : setAdd [GVal.str t] (GVal.str t) = [GVal.str t] := by
      simp [setAdd, setContains, pyEq]
    rw [List.foldl_cons, hadd]
    exact ih (fun y hy => h y (by simp [hy]))

/-- The collect loop of `join` on well-formed tagged inputs: tags are
folded into the set, coordinates are appended in order. -/
theorem joinCollect_tagged (gs : List (String × GVal)) :
    ∀ (types data : List GVal),
      joinCollect types data (gs.map fun p => taggedGeo p.1 p.2)
        = .ok ((gs.map fun p => GVal.str p.1).foldl setAdd types,
               data ++ gs.map Prod.snd) := by
  induction gs with
  | nil => intro types data; simp [joinCollect]
  | cons p rest ih =>
    intro types data
    have step : joinCollect types data
        ((p :: rest).map fun q => taggedGeo q.1 q.2)
        = joinCollect (setAdd types (.str p.1)) (data ++ [p.2])
            (rest.map fun q => taggedGeo q.1 q.2) := rfl
    rw [step, ih]
    simp

/-- A list with two distinct members has length at least 2. -/
theorem one_lt_length_of_two_mem {α : Type} {l : List α} {a b : α}
    (ha : a ∈ l) (hb : b ∈ l) (hab : a ≠ b) : 1 < l.length := by
  match l with
  | [] => simp at ha
  | [x] =>
    simp at ha hb
    exact absurd (ha.trans hb.symm) hab
  | x :: y :: rest => simp only [List.length_cons]; omega

/-- **C7** (confirmed).  `join_multi_single_type_mappings` fails with
`TypeMismatch` when the (well-formed tagged) inputs carry two different
tags, returns the empty mapping for the empty input list, and otherwise
returns the `Multi<Tag>` mapping whose coordinates list the inputs'
coordinates in input order. -/
theorem claim_C7_join_multi_single_type (gs : List (String × GVal)) :
    ((∃ p ∈ gs, ∃ q ∈ gs, p.1 ≠ q.1) →
      join_multi_single_type_mappings (gs.map fun p => taggedGeo p.1 p.2)
        = .error .typeMismatch) ∧
    (gs = [] →
      join_multi_single_type_mappings (gs.map fun p => taggedGeo p.1 p.2)
        = .ok (.obj none none none none none)) ∧
    (∀ t : String, gs ≠ [] → (∀ p ∈ gs, p.1 = t) →
      join_multi_single_type_mappings (gs.map fun p => taggedGeo p.1 p.2)
        = .ok (.obj (some (.str ("Multi" ++ t)))
            (some (.list (gs.map Prod.snd))) none none none)) := by
  refine ⟨?_, ?_, ?_⟩
  · rintro ⟨p, hp, q, hq, hne⟩
    have hmem_p : GVal.str p.1 ∈ gs.map fun r => GVal.str r.1 :=
      List.mem_map_of_mem _ hp
    have hmem_q : GVal.str q.1 ∈ gs.map fun r => GVal.str r.1 :=
      List.mem_map_of_mem _ hq
    have hne' : GVal.str p.1 ≠ GVal.str q.1 := by
      intro h; exact hne (by injection h)
    have hlen : 1 <
        ((gs.map fun r => GVal.str r.1).foldl setAdd []).length :=
      one_lt_length_of_two_mem
        (str_mem_foldl_setAdd _ _ [] hmem_p)
        (str_mem_foldl_setAdd _ _ [] hmem_q) hne'
    unfold join_multi_single_type_mappings
    rw [joinCollect_tagged gs [] []]
    simp only [Bind.bind, Except.bind, List.nil_append]
    rw [if_pos hlen]
  · intro h
    subst h
    rfl
  · intro t hne hall
    have htypes : (gs.map fun r => GVal.str r.1).foldl setAdd []
        = [GVal.str t] := by
      match gs, hne with
      | p :: rest, _ =>
        have hp : p.1 = t := hall p (by simp)
        simp only [List.map_cons, List.foldl_cons, hp]
        have h0 : setAdd [] (GVal.str t) = [GVal.str t] := by
          simp [setAdd, setContains]
        rw [h0]
        exact foldl_setAdd_const t _ (by
          intro x hx
          obtain ⟨r, hr, hrx⟩ := List.mem_map.mp hx
          rw [← hrx, hall r (by simp [hr])])
    unfold join_multi_single_type_mappings
    rw [joinCollect_tagged gs [] []]
    simp only [Bind.bind, Except.bind, List.nil_append, htypes]
    rfl

/-- Witness for C7: a `LineString`/`Polygon` mix fails with
`TypeMismatch`; two `LineString` inputs join into a `MultiLineString`
with both coordinate lists in order. -/
theorem claim_C7_join_multi_single_type_witness :
    join_multi_single_type_mappings
        ([(("LineString" : String), GVal.list []),
          ("Polygon", GVal.list [])].map fun p => taggedGeo p.1 p.2)
      = .error .typeMismatch ∧
    join_multi_single_type_mappings
        ([(("LineString" : String), GVal.list [.vec ⟨0, 0, 0⟩]),
          ("LineString", GVal.list [.vec ⟨1, 1, 0⟩])].map
            fun p => taggedGeo p.1 p.2)
      = .ok (.obj (some (.str "MultiLineString"))
          (some (.list [GVal.list [.vec ⟨0, 0, 0⟩],
                        GVal.list [.vec ⟨1, 1, 0⟩]]))
          none none none) := by
  constructor
  · exact (claim_C7_join_multi_single_type _).1
      ⟨("LineString", GVal.list []), by simp,
       ("Polygon", GVal.list []), by simp, by simp⟩
  · have h := (claim_C7_join_multi_single_type
        [(("LineString" : String), GVal.list [.vec ⟨0, 0, 0⟩]),
         ("LineString", GVal.list [.vec ⟨1, 1, 0⟩])]).2.2
      "LineString" (by simp) (by simp)
    simpa using h

/-- **C10** (confirmed).  When the proxy is built from an iterable of
entities, `from_dxf_entities` (and `proxy`) calls
`collection(entity, distance)` without forwarding `force_line_string`,
so the flag has no effect on the result. -/
theorem claim_C10_force_line_string_ignored_for_iterables
    (es : List Entity) (d : ℚ) :
    from_dxf_entities (.many es) d true
        = from_dxf_entities (.many es) d false ∧
      proxyFn (.many es) d true = proxyFn (.many es) d false :=
  ⟨rfl, rfl⟩

end EzdxfSpec
